import Mathlib

/-!
Verification of the `mcp-linkedin` tool layer (`src/mcp_linkedin/client.py`).

The Python module is a stateless shim over an external LinkedIn client:
every tool builds a parameter dictionary, calls client methods, reshapes the
returned nested dictionaries and serializes to a string.  We embed it
shallowly:

* Python dictionaries coming from the remote API become structures whose
  fields are all `Option`-valued (a `none` field is an absent key);
  `d.get(k, default)` is `Option.getD`, and direct indexing `d[k]` is a
  fallible `keyGet` returning `Except` (a `KeyError`).
* The remote client is a structure of `Except`-returning functions; a
  `.error` result models the client method raising an exception.
* Each tool returns a `ToolResult`: `ok` carries the value that is
  serialized with `json.dumps` (or the built plain string), `okStr` an early
  plain-string return, `caught` the string returned by an `except` block, and
  `raised` an exception that propagates to the caller.
* `str.lower()`, substring `in`, `split(":")[-1]` and `str.split()` are
  modelled by structural-recursion helpers (`pyLower`, `strIn`, `urnLast`,
  `pyWords`) so that terms evaluate inside the kernel.
-/

/-- ASCII lowercasing of one character, as Python `str.lower` does on ASCII. -/
def lowChar (c : Char) : Char :=
  if ('A' ≤ c ∧ c ≤ 'Z') then Char.ofNat (c.toNat + 32) else c

/-- Model of Python `s.lower()` (the repository only compares ASCII keywords). -/
def pyLower (s : String) : String := String.mk (s.data.map lowChar)

/-- Model of the Python substring test `needle in hay`. -/
def strIn (needle hay : String) : Prop := needle.data <:+: hay.data

instance (n h : String) : Decidable (strIn n h) := List.decidableInfix _ _

/-- Boolean form of `strIn`, used where the code branches on it. -/
def strInB (needle hay : String) : Bool := decide (strIn needle hay)

/-- Model of Python `s.split(":")[-1]`: the characters after the last colon
(`split` never returns an empty list, so `[-1]` is total). -/
def urnLast (s : String) : String :=
  String.mk ((s.data.reverse.takeWhile (fun c => c ≠ ':')).reverse)

/-- Model of Python `s.split()` with no argument: whitespace-separated words,
empty chunks dropped (the repository only feeds it space-separated text). -/
def pyWords (s : String) : List String :=
  ((s.data.splitOnP (fun c => c = ' ')).map String.mk).filter (fun w => w ≠ "")

/-- Direct dictionary indexing `d[k]`: raises `KeyError` when the key is absent. -/
def keyGet (o : Option α) (k : String) : Except String α :=
  match o with
  | some v => .ok v
  | none => .error (("KeyError: ") ++ k)

/-- Python truthiness of an optional string parameter (`if p:`):
absent (`None`) and empty strings are falsy. -/
def truthyOS : Option String → Bool
  | none => false
  | some s => !(s == "")

/-- The repository builds search parameter dictionaries only from truthy
optional inputs; an untruthy input leaves the key absent. -/
def keepTruthy (o : Option String) : Option String :=
  if truthyOS o then o else none

/-- Outcome of one tool invocation.  `ok` is the value passed to
`json.dumps` (or the assembled plain string), `okStr` an early literal string
return, `caught` the error string produced by an `except` block, and `raised`
an exception escaping to the caller. -/
inductive ToolResult (α : Type) where
  | ok : α → ToolResult α
  | okStr : String → ToolResult α
  | caught : String → ToolResult α
  | raised : String → ToolResult α
deriving DecidableEq

/-- The `try/except Exception` guard wrapping a tool body: an exception is
turned into a message string prefixed by the tool's error text. -/
def guardE (pre : String) : Except String α → ToolResult α
  | .ok a => .ok a
  | .error e => .caught (pre ++ e)

/-- Guard for the two tools whose body can also return an early literal
string (`"Error: Could not find company name"`). -/
def guardE2 (pre : String) : Except String (Sum String α) → ToolResult α
  | .ok (.inl s) => .okStr s
  | .ok (.inr a) => .ok a
  | .error e => .caught (pre ++ e)

/-- The list of records a list-valued tool serializes; error outcomes carry
no records. -/
def resultRecords : ToolResult (List α) → List α
  | .ok l => l
  | _ => []

/-- Statement that a string begins with `"Error"`. -/
def beginsWithError (s : String) : Prop := ∃ t, s = ("Error") ++ t

/-- A tool outcome that never propagates an exception and whose caught
messages begin with `"Error"`. -/
def errOk : ToolResult α → Prop
  | .raised _ => False
  | .caught s => beginsWithError s
  | _ => True

/- ---------------------------------------------------------------------- -/
/- Upstream data model: dictionaries returned by the remote client.       -/
/- ---------------------------------------------------------------------- -/

/-- A `startDate`/`endDate` dictionary inside a `timePeriod`. -/
structure StartD where
  year : Option Int := none
  month : Option Int := none
deriving DecidableEq

structure TimePeriod where
  startDate : Option StartD := none
  endDate : Option StartD := none
deriving DecidableEq

structure Experience where
  companyName : Option String := none
  title : Option String := none
  description : Option String := none
  timePeriod : Option TimePeriod := none
deriving DecidableEq

structure Education where
  schoolName : Option String := none
  degreeName : Option String := none
  fieldOfStudy : Option String := none
  timePeriod : Option TimePeriod := none
deriving DecidableEq

structure Skill where
  name : Option String := none
deriving DecidableEq

/-- A `search_people` hit. -/
structure Person where
  public_id : Option String := none
  urn_id : Option String := none
  firstName : Option String := none
  lastName : Option String := none
  occupation : Option String := none
  locationName : Option String := none
  experience : Option (List Experience) := none
deriving DecidableEq

/-- A full profile, as returned by `get_profile`. -/
structure Profile where
  firstName : Option String := none
  lastName : Option String := none
  headline : Option String := none
  locationName : Option String := none
  industryName : Option String := none
  experience : Option (List Experience) := none
  education : Option (List Education) := none
deriving DecidableEq

structure Headquarter where
  city : Option String := none
  country : Option String := none
deriving DecidableEq

structure Company where
  entityUrn : Option String := none
  name : Option String := none
  industries : Option (List String) := none
  headquarter : Option Headquarter := none
  description : Option String := none
  staffCount : Option Int := none
  websiteUrl : Option String := none
  specialities : Option (List String) := none
  founded : Option Int := none
deriving DecidableEq

/-- A `search_jobs` hit (only its `entityUrn` is read). -/
structure JobHit where
  entityUrn : Option String := none
deriving DecidableEq

structure CompanyInfo where
  entityUrn : Option String := none
  name : Option String := none
deriving DecidableEq

/-- The dictionary under the key
`com.linkedin.voyager.deco.jobs.web.shared.WebCompactJobPostingCompany`. -/
structure WebCompactJobPostingCompany where
  companyResolutionResult : Option CompanyInfo := none
deriving DecidableEq

structure CompanyDetails where
  webCompactJobPostingCompany : Option WebCompactJobPostingCompany := none
deriving DecidableEq

structure JobDescription where
  text : Option String := none
deriving DecidableEq

/-- A job record, as returned by `get_job`. -/
structure JobData where
  title : Option String := none
  companyDetails : Option CompanyDetails := none
  description : Option JobDescription := none
  formattedLocation : Option String := none
deriving DecidableEq

/-- A feed post record (`get_feed_posts` element). -/
structure FeedPost where
  author_name : Option String := none
  content : Option String := none
deriving DecidableEq

structure SubDescription where
  text : Option String := none
deriving DecidableEq

structure Actor where
  subDescription : Option SubDescription := none
deriving DecidableEq

structure Commentary where
  text : Option String := none
deriving DecidableEq

structure UpdateV2 where
  commentary : Option Commentary := none
  actor : Option Actor := none
deriving DecidableEq

/-- The dictionary under the key `value` of a company update, holding
`com.linkedin.voyager.feed.render.UpdateV2`. -/
structure UpdateValue where
  updateV2 : Option UpdateV2 := none
deriving DecidableEq

structure CompanyUpdate where
  value : Option UpdateValue := none
deriving DecidableEq

structure ProfilePost where
  commentary : Option Commentary := none
deriving DecidableEq

/- ---------------------------------------------------------------------- -/
/- Search parameter dictionaries and the remote client.                   -/
/- ---------------------------------------------------------------------- -/

structure PeopleSearchParams where
  keywords : Option String := none
  title : Option String := none
  company_name : Option String := none
  school_name : Option String := none
  industry : Option String := none
  location_name : Option String := none
deriving DecidableEq

structure CompanySearchParams where
  keywords : Option String := none
  industry : Option String := none
  location : Option String := none
deriving DecidableEq

structure JobSearchParams where
  keywords : Option String := none
  location_name : Option String := none
  company_name : Option String := none
  offset : Option Nat := none
deriving DecidableEq

/-- The external `linkedin_api` client: one `Except`-returning function per
remote method used by the repository.  `.error` models the method raising. -/
structure Client where
  search_people : PeopleSearchParams → Nat → Except String (List Person)
  search_companies : CompanySearchParams → Nat → Except String (List Company)
  search_jobs : JobSearchParams → Nat → Except String (List JobHit)
  get_job : String → Except String JobData
  get_company : String → Except String Company
  get_company_updates : String → Nat → Except String (List CompanyUpdate)
  get_profile : String → Except String Profile
  get_profile_skills : String → Except String (List Skill)
  get_profile_posts : String → Nat → Except String (List ProfilePost)
  get_feed_posts : Nat → Nat → Except String (List FeedPost)

/- ---------------------------------------------------------------------- -/
/- Output records (the dictionaries each tool serializes).                -/
/- ---------------------------------------------------------------------- -/

/-- Output record of `search_people`, `search_company_employees` and
`find_decision_makers`. -/
structure PersonRec where
  id : String
  name : String
  title : String
  company : String
  location : String
  url : String
deriving DecidableEq

/-- Output record of `search_people_by_skills`. -/
structure SkillPersonRec where
  id : String
  name : String
  title : String
  company : String
  location : String
  matched_skills : List String
  url : String
deriving DecidableEq

/-- Output record of `search_companies`; `size := none` renders as the
string `"Unknown"`. -/
structure CompanyRec where
  id : String
  name : String
  industry : String
  location : String
  description : String
  size : Option Int
  url : String
deriving DecidableEq

/-- Output record of `get_company_details`. -/
structure CompanyDetailsRec where
  id : String
  name : String
  industry : String
  description : String
  website : String
  location : String
  size : Option Int
  specialties : List String
  founded : Option Int
deriving DecidableEq

structure ExpRec where
  company : String
  title : String
  description : String
  date_range : String
deriving DecidableEq

structure EduRec where
  school : String
  degree : String
  field : String
  date_range : String
deriving DecidableEq

/-- Output record of `get_profile_details`. -/
structure ProfileDetailsRec where
  id : String
  name : String
  headline : String
  location : String
  industry : String
  experience : List ExpRec
  education : List EduRec
  skills : List String
  url : String
deriving DecidableEq

/-- Output record of `get_company_updates`; `timestamp := none` is the
Python `None` left when the actor dictionary is absent. -/
structure UpdateRec where
  content : String
  timestamp : Option String
deriving DecidableEq

/-- Small decision-maker record used by `generate_lead_recommendations`
and `identify_target_accounts`. -/
structure DMRec where
  name : String
  title : String
  url : String
deriving DecidableEq

/-- Output record of `generate_lead_recommendations`. -/
structure LeadRec where
  company_id : String
  company_name : String
  industry : String
  location : String
  size : Option Int
  technology_fit : String
  decision_makers : List DMRec
  company_url : String
deriving DecidableEq

/-- Output record of `identify_target_accounts`. -/
structure AccountRec where
  company_id : String
  company_name : String
  industry : String
  location : String
  size : Option Int
  description : String
  tech_score : Nat
  tech_mentions : List String
  decision_makers : List DMRec
  company_url : String
deriving DecidableEq

/-- Output record of `analyze_prospect_profile`. -/
structure AnalysisRec where
  name : String
  headline : String
  current_title : String
  current_company : String
  location : String
  industry : String
  is_decision_maker : Bool
  service_interests : List String
  service_score : Nat
  opportunity_score : Nat
  opportunity_level : String
  profile_url : String
  skills : List String
deriving DecidableEq

/-- Output record of `find_companies_using_technologies`; phase-two records
set `source := some "Job Posting"` and may have `id := none`. -/
structure TechCompanyRec where
  id : Option String
  name : String
  industry : String
  location : String
  size : Option Int
  technologies_mentioned : List String
  url : String
  source : Option String
deriving DecidableEq

structure ProfileRef where
  id : String
  name : String
  url : String
deriving DecidableEq

/-- Output record of `find_common_connections`. -/
structure CommonRec where
  profile1 : ProfileRef
  profile2 : ProfileRef
  common_companies : List String
  common_schools : List String
  common_skills : List String
  connection_strength : Nat
deriving DecidableEq

/-- Output record of `find_recent_job_changes`. -/
structure JobChangeRec where
  id : String
  name : String
  current_title : String
  current_company : String
  previous_company : String
  location : String
  url : String
deriving DecidableEq

/-- Element of `recent_activity` (`typ` is the JSON key `type`). -/
structure ActivityRec where
  typ : String
  content : String
deriving DecidableEq

/-- Compact company info attached to an outreach context; `none` is the
empty dictionary left when lookup fails or there is no current company. -/
structure CompanyBriefRec where
  id : String
  name : String
  size : Option Int
  industry : String
deriving DecidableEq

/-- A personalization point (`typ` is the JSON key `type`). -/
structure PointRec where
  typ : String
  context : String
deriving DecidableEq

structure ProspectRec where
  name : String
  title : String
  company : String
  headline : String
  url : String
deriving DecidableEq

structure EduBriefRec where
  school : String
  degree : String
  field : String
deriving DecidableEq

structure ExpBriefRec where
  company : String
  title : String
deriving DecidableEq

/-- Output record of `generate_sales_outreach_context`. -/
structure OutreachRec where
  prospect : ProspectRec
  company_details : Option CompanyBriefRec
  top_skills : List String
  education_background : List EduBriefRec
  experience_summary : List ExpBriefRec
  recent_activity : List ActivityRec
  common_connections : List String
  personalization_points : List PointRec
  conversation_starters : List String
deriving DecidableEq

/- ---------------------------------------------------------------------- -/
/- Shared formatting helpers (inline expressions in the Python source).   -/
/- ---------------------------------------------------------------------- -/

/-- `company.get("industries", ["Unknown"])[0] if company.get("industries")
else "Unknown"`: first industry of a truthy (non-empty) list, else
`"Unknown"`. -/
def firstIndustry : Option (List String) → String
  | some (x :: _) => x
  | _ => ("Unknown")

/-- `company.get("headquarter", {}).get("country", "Unknown") if
company.get("headquarter") else "Unknown"`; an absent headquarter is falsy
and both falsy branches give `"Unknown"`. -/
def hqCountry : Option Headquarter → String
  | some hq => hq.country.getD ("Unknown")
  | none => ("Unknown")

/-- `f"{hq.get('city', '')}, {hq.get('country', '')}" if company_headquarter
else "Unknown"` (from `get_company_details`). -/
def hqLocationLine : Option Headquarter → String
  | some hq => (hq.city.getD ("")) ++ (", ") ++ (hq.country.getD (""))
  | none => ("Unknown")

/-- `f"{person.get('firstName', '')} {person.get('lastName', '')}"`. -/
def fullNameOfPerson (person : Person) : String :=
  (person.firstName.getD ("")) ++ (" ") ++ (person.lastName.getD (""))

/-- `f"{profile.get('firstName', '')} {profile.get('lastName', '')}"`. -/
def fullNameOfProfile (profile : Profile) : String :=
  (profile.firstName.getD ("")) ++ (" ") ++ (profile.lastName.getD (""))

/-- `f"https://www.linkedin.com/in/{profile_id}"`. -/
def profileUrl (profile_id : String) : String :=
  ("https://www.linkedin.com/in/") ++ profile_id

/-- `f"https://www.linkedin.com/company/{company_id}"`. -/
def companyUrl (company_id : String) : String :=
  ("https://www.linkedin.com/company/") ++ company_id

/-- Rendering of an optional integer year; `none` renders as the default
string given at the call site. -/
def yearStr : Option Int → String
  | some y => toString y
  | none => ("")

/- ---------------------------------------------------------------------- -/
/- Tool: get_feed_posts.                                                  -/
/- ---------------------------------------------------------------------- -/

/-- The formatting loop of `get_feed_posts`; it sits outside the `try`
block and indexes `urn['author_name']` / `urn['content']` directly, so a
missing key raises. -/
def buildFeedPosts : List FeedPost → String → Except String String
  | [], acc => .ok acc
  | urn :: rest, acc => do
    let author ← keyGet urn.author_name ("author_name")
    let content ← keyGet urn.content ("content")
    buildFeedPosts rest (acc ++ ("Post by ") ++ author ++ (": ") ++ content ++ ("\n"))

/-- Tool `get_feed_posts`: only the remote call is inside the `try`; the
formatting loop after it is unguarded. -/
def get_feed_posts (c : Client) (limit offset : Nat) : ToolResult String :=
  match c.get_feed_posts limit offset with
  | .error e => .caught (("Error: ") ++ e)
  | .ok post_urns =>
    match buildFeedPosts post_urns ("") with
    | .ok posts => .ok posts
    | .error e => .raised e

/- ---------------------------------------------------------------------- -/
/- Tool: search_jobs (no try/except at all).                              -/
/- ---------------------------------------------------------------------- -/

/-- Per-job field extraction in `search_jobs`: every field is read with
direct indexing, so any absent key raises. -/
def jobLine (job_data : JobData) : Except String String := do
  let job_title ← keyGet job_data.title ("title")
  let cd ← keyGet job_data.companyDetails ("companyDetails")
  let wc ← keyGet cd.webCompactJobPostingCompany
    ("com.linkedin.voyager.deco.jobs.web.shared.WebCompactJobPostingCompany")
  let crr ← keyGet wc.companyResolutionResult ("companyResolutionResult")
  let company_name ← keyGet crr.name ("name")
  let jdesc ← keyGet job_data.description ("description")
  let job_description ← keyGet jdesc.text ("text")
  let job_location ← keyGet job_data.formattedLocation ("formattedLocation")
  pure (("Job by ") ++ job_title ++ (" at ") ++ company_name ++ (" in ") ++
    job_location ++ (": ") ++ job_description ++ ("\n\n"))

/-- The job loop of `search_jobs`: fetch each job by the last segment of its
`entityUrn` and append a formatted line. -/
def searchJobsGo (c : Client) : List JobHit → String → Except String String
  | [], acc => .ok acc
  | job :: rest, acc => do
    let urn ← keyGet job.entityUrn ("entityUrn")
    let job_data ← c.get_job (urnLast urn)
    let line ← jobLine job_data
    searchJobsGo c rest (acc ++ line)

/-- Tool `search_jobs`.  It has no exception guard: any raise from the
remote client or from direct key access propagates to the caller. -/
def search_jobs (c : Client) (keywords : String) (limit offset : Nat)
    (location : String) : ToolResult String :=
  match (do
      let jobs ← c.search_jobs
        { keywords := some keywords, location_name := some location,
          offset := some offset } limit
      searchJobsGo c jobs ("")) with
  | .ok s => .ok s
  | .error e => .raised e

/- ---------------------------------------------------------------------- -/
/- Tool: search_companies.                                                -/
/- ---------------------------------------------------------------------- -/

/-- The per-company output dictionary of `search_companies`. -/
def fmtCompany (company : Company) : CompanyRec :=
  { id := urnLast (company.entityUrn.getD ("")),
    name := company.name.getD ("Unknown"),
    industry := firstIndustry company.industries,
    location := hqCountry company.headquarter,
    description := company.description.getD ("No description available"),
    size := company.staffCount,
    url := companyUrl (urnLast (company.entityUrn.getD (""))) }

/-- Tool `search_companies`.  Note that the result list is *not* truncated
to `limit`; every record the client returns is formatted. -/
def search_companies (c : Client) (keywords : String)
    (industry location : Option String) (limit : Nat) :
    ToolResult (List CompanyRec) :=
  guardE ("Error searching companies: ") (do
    let companies ← c.search_companies
      { keywords := some keywords, industry := keepTruthy industry,
        location := keepTruthy location } limit
    pure (companies.map fmtCompany))

/- ---------------------------------------------------------------------- -/
/- Tool: get_company_details.                                             -/
/- ---------------------------------------------------------------------- -/

def get_company_details (c : Client) (company_id : String) :
    ToolResult CompanyDetailsRec :=
  guardE ("Error getting company details: ") (do
    let company ← c.get_company company_id
    pure {
      id := company_id,
      name := company.name.getD ("Unknown"),
      industry := firstIndustry company.industries,
      description := company.description.getD ("No description available"),
      website := company.websiteUrl.getD ("Unknown"),
      location := hqLocationLine company.headquarter,
      size := company.staffCount,
      specialties := company.specialities.getD [],
      founded := company.founded })

/- ---------------------------------------------------------------------- -/
/- Tool: search_people.                                                   -/
/- ---------------------------------------------------------------------- -/

/-- The parameter dictionary built by `search_people` (only truthy inputs
are added). -/
def spParams (keywords title company industry location school : Option String) :
    PeopleSearchParams :=
  { keywords := keepTruthy keywords,
    title := keepTruthy title,
    company_name := keepTruthy company,
    school_name := keepTruthy school,
    industry := keepTruthy industry,
    location_name := keepTruthy location }

/-- `current_company`: first experience entry's company name when the hit
has a truthy (non-empty) experience list, else the empty string. -/
def currentCompanyOf (person : Person) : String :=
  match person.experience with
  | some (e :: _) => e.companyName.getD ("")
  | _ => ("")

/-- The per-person output dictionary of `search_people`. -/
def fmtPersonSP (person : Person) : PersonRec :=
  { id := person.public_id.getD (""),
    name := fullNameOfPerson person,
    title := person.occupation.getD (""),
    company := currentCompanyOf person,
    location := person.locationName.getD (""),
    url := profileUrl (person.public_id.getD ("")) }

/-- The skill filter of `search_people`: fetch each hit's skills and keep
hits having a skill whose name contains the requested skill
(case-insensitively).  Runs inside the tool's outer `try`. -/
def spSkillFilter (c : Client) (skill : String) :
    List Person → List Person → Except String (List Person)
  | [], acc => .ok acc
  | person :: rest, acc => do
    let profile_skills ← c.get_profile_skills (person.public_id.getD (""))
    if profile_skills.any
        (fun s => strInB (pyLower skill) (pyLower (s.name.getD ("")))) then
      spSkillFilter c skill rest (acc ++ [person])
    else
      spSkillFilter c skill rest acc

/-- Tool `search_people`.  The `[:limit]` truncation happens only on the
skill-filtered branch; without a truthy `skill` the client's list is
formatted whole. -/
def search_people (c : Client)
    (keywords title company industry location school skill : Option String)
    (limit : Nat) : ToolResult (List PersonRec) :=
  guardE ("Error searching people: ") (do
    let people ← c.search_people
      (spParams keywords title company industry location school) limit
    let people ←
      if truthyOS skill && !people.isEmpty then do
        let filtered ← spSkillFilter c (skill.getD ("")) people []
        pure (filtered.take limit)
      else pure people
    pure (people.map fmtPersonSP))

/- ---------------------------------------------------------------------- -/
/- Tool: get_profile_details.                                             -/
/- ---------------------------------------------------------------------- -/

/-- Experience date range `f"{start year or ''} - {end year or 'Present'}"`. -/
def dateRangeExp (tp : Option TimePeriod) : String :=
  (yearStr ((tp.bind TimePeriod.startDate).bind StartD.year)) ++ (" - ") ++
    (match (tp.bind TimePeriod.endDate).bind StartD.year with
     | some y => toString y
     | none => ("Present"))

/-- Education date range `f"{start year or ''} - {end year or ''}"`. -/
def dateRangeEdu (tp : Option TimePeriod) : String :=
  (yearStr ((tp.bind TimePeriod.startDate).bind StartD.year)) ++ (" - ") ++
    (yearStr ((tp.bind TimePeriod.endDate).bind StartD.year))

def fmtExpRec (exp : Experience) : ExpRec :=
  { company := exp.companyName.getD (""),
    title := exp.title.getD (""),
    description := exp.description.getD (""),
    date_range := dateRangeExp exp.timePeriod }

def fmtEduRec (edu : Education) : EduRec :=
  { school := edu.schoolName.getD (""),
    degree := edu.degreeName.getD (""),
    field := edu.fieldOfStudy.getD (""),
    date_range := dateRangeEdu edu.timePeriod }

def get_profile_details (c : Client) (profile_id : String) :
    ToolResult ProfileDetailsRec :=
  guardE ("Error getting profile details: ") (do
    let profile ← c.get_profile profile_id
    let skills ← c.get_profile_skills profile_id
    pure {
      id := profile_id,
      name := fullNameOfProfile profile,
      headline := profile.headline.getD (""),
      location := profile.locationName.getD (""),
      industry := profile.industryName.getD (""),
      experience := (profile.experience.getD []).map fmtExpRec,
      education := (profile.education.getD []).map fmtEduRec,
      skills := skills.map (fun s => s.name.getD ("")),
      url := profileUrl profile_id })

/- ---------------------------------------------------------------------- -/
/- Tool: search_company_employees.                                        -/
/- ---------------------------------------------------------------------- -/

/-- The per-person output dictionary used by `search_company_employees` and
`find_decision_makers` (company taken from the company lookup). -/
def fmtEmployee (company_name : String) (person : Person) : PersonRec :=
  { id := person.public_id.getD (""),
    name := fullNameOfPerson person,
    title := person.occupation.getD (""),
    company := company_name,
    location := person.locationName.getD (""),
    url := profileUrl (person.public_id.getD ("")) }

def search_company_employees (c : Client) (company_id : String)
    (title : Option String) (limit : Nat) : ToolResult (List PersonRec) :=
  guardE2 ("Error searching company employees: ") (do
    let company ← c.get_company company_id
    let company_name := company.name.getD ("")
    if company_name = ("") then
      pure (.inl ("Error: Could not find company name"))
    else do
      let employees ← c.search_people
        { company_name := some company_name, title := keepTruthy title } limit
      pure (.inr (employees.map (fmtEmployee company_name))))

/- ---------------------------------------------------------------------- -/
/- Tool: search_people_by_skills.                                         -/
/- ---------------------------------------------------------------------- -/

/-- `all(any(skill.lower() in skill_name for skill_name in names) for skill
in skills)` with `names` already lowercased. -/
def hasAllSkills (skills profile_skill_names : List String) : Bool :=
  skills.all (fun skill =>
    profile_skill_names.any (fun skill_name => strInB (pyLower skill) skill_name))

/-- The filter loop of `search_people_by_skills`: fetch each hit's skills,
keep hits having all requested skills, and break once `limit` hits are
collected (the break fires after the append). -/
def sbsFilter (c : Client) (skills : List String) (limit : Nat) :
    List Person → List Person → Except String (List Person)
  | [], acc => .ok acc
  | person :: rest, acc => do
    let profile_skills ← c.get_profile_skills (person.public_id.getD (""))
    let names := profile_skills.map (fun s => pyLower (s.name.getD ("")))
    if hasAllSkills skills names then
      let acc2 := acc ++ [person]
      if limit ≤ acc2.length then .ok acc2
      else sbsFilter c skills limit rest acc2
    else sbsFilter c skills limit rest acc

/-- The matched-skills list of one output record: skill names containing
any requested skill (case-insensitively). -/
def matchedSkills (skills : List String) (person_skills : List Skill) : List String :=
  (person_skills.map (fun s => s.name.getD (""))).filter
    (fun skill_name => skills.any (fun s => strInB (pyLower s) (pyLower skill_name)))

/-- The formatting loop of `search_people_by_skills` (it fetches each
person's skills a second time). -/
def sbsFormat (c : Client) (skills : List String) :
    List Person → Except String (List SkillPersonRec)
  | [] => .ok []
  | person :: rest => do
    let person_skills ← c.get_profile_skills (person.public_id.getD (""))
    let tail ← sbsFormat c skills rest
    pure ({ id := person.public_id.getD (""),
            name := fullNameOfPerson person,
            title := person.occupation.getD (""),
            company := currentCompanyOf person,
            location := person.locationName.getD (""),
            matched_skills := matchedSkills skills person_skills,
            url := profileUrl (person.public_id.getD ("")) } :: tail)

/-- Tool `search_people_by_skills`.  The first skill (when present) becomes
the upstream keyword; the upstream search asks for `limit * 2` hits. -/
def search_people_by_skills (c : Client) (skills : List String)
    (title industry location : Option String) (limit : Nat) :
    ToolResult (List SkillPersonRec) :=
  guardE ("Error searching people by skills: ") (do
    let params : PeopleSearchParams :=
      { title := keepTruthy title,
        industry := keepTruthy industry,
        location_name := keepTruthy location,
        keywords := match skills with | [] => none | s :: _ => some s }
    let people ← c.search_people params (limit * 2)
    let filtered ← sbsFilter c skills limit people []
    sbsFormat c skills (filtered.take limit))

/- ---------------------------------------------------------------------- -/
/- Tool: get_company_updates.                                             -/
/- ---------------------------------------------------------------------- -/

/-- `update.get("value", {}).get("...UpdateV2", {}).get("commentary",
{}).get("text", "No content")`. -/
def updateText (u : CompanyUpdate) : String :=
  ((((u.value.bind UpdateValue.updateV2).bind UpdateV2.commentary).bind
    Commentary.text).getD ("No content"))

/-- `timestamp` stays `None` unless the actor dictionary is present, then it
is `actor.get("subDescription", {}).get("text", "")`. -/
def updateTimestamp (u : CompanyUpdate) : Option String :=
  match (u.value.bind UpdateValue.updateV2).bind UpdateV2.actor with
  | some actor => some ((actor.subDescription.bind SubDescription.text).getD (""))
  | none => none

def get_company_updates (c : Client) (company_id : String) (limit : Nat) :
    ToolResult (List UpdateRec) :=
  guardE ("Error getting company updates: ") (do
    let updates ← c.get_company_updates company_id limit
    pure (updates.map (fun u =>
      { content := updateText u, timestamp := updateTimestamp u })))

/- ---------------------------------------------------------------------- -/
/- Tool: find_decision_makers.                                            -/
/- ---------------------------------------------------------------------- -/

/-- Default titles substituted for an untruthy `titles` argument. -/
def defaultDMTitles : List String :=
  [("CEO"), ("CTO"), ("CIO"), ("Director"), ("VP"), ("Head"), ("Manager")]

/-- The title loop of `find_decision_makers`: one people search per title
with a per-title ceiling of `limit // len(titles) + 1`, extending the
accumulator and breaking once `limit` people are collected. -/
def fdmSearchGo (c : Client) (company_name : String) (perTitle limit : Nat) :
    List String → List Person → Except String (List Person)
  | [], acc => .ok acc
  | t :: rest, acc => do
    let people ← c.search_people
      { company_name := some company_name, title := some t } perTitle
    let acc2 := acc ++ people
    if limit ≤ acc2.length then .ok acc2
    else fdmSearchGo c company_name perTitle limit rest acc2

/-- Tool `find_decision_makers`.  An untruthy `titles` (absent or the empty
list) is replaced by `defaultDMTitles` before any search. -/
def find_decision_makers (c : Client) (company_id : String)
    (titles : Option (List String)) (limit : Nat) : ToolResult (List PersonRec) :=
  guardE2 ("Error finding decision makers: ") (do
    let titles := match titles with
      | none => defaultDMTitles
      | some [] => defaultDMTitles
      | some ts => ts
    let company ← c.get_company company_id
    let company_name := company.name.getD ("")
    if company_name = ("") then
      pure (.inl ("Error: Could not find company name"))
    else do
      let dms ← fdmSearchGo c company_name (limit / titles.length + 1) limit titles []
      pure (.inr ((dms.take limit).map (fmtEmployee company_name))))

/- ---------------------------------------------------------------------- -/
/- Tool: generate_lead_recommendations.                                   -/
/- ---------------------------------------------------------------------- -/

/-- `size_ranges` lookup on the lowercased size keyword, with default
`(0, inf)`; `none` as upper bound is `float('inf')`. -/
def sizeRange (s : String) : Int × Option Int :=
  if s = ("small") then (1, some 50)
  else if s = ("medium") then (51, some 500)
  else if s = ("large") then (501, none)
  else (0, none)

/-- `range_min <= staff_count <= range_max`. -/
def inSizeRange (staff : Int) (r : Int × Option Int) : Bool :=
  decide (r.1 ≤ staff) &&
    (match r.2 with | some mx => decide (staff ≤ mx) | none => true)

/-- Default decision-maker titles used by `generate_lead_recommendations`. -/
def glrDMTitles : List String :=
  [("CTO"), ("CIO"), ("IT Director"), ("VP of Technology"), ("Head of IT")]

/-- Decision-maker record built inside the lead/account loops. -/
def fmtDMRec (person : Person) : DMRec :=
  { name := fullNameOfPerson person,
    title := person.occupation.getD (""),
    url := profileUrl (person.public_id.getD ("")) }

/-- The inner person loop: append each person and break once two decision
makers are collected (the break only leaves the person loop). -/
def glrAddPeople : List Person → List DMRec → List DMRec
  | [], acc => acc
  | p :: ps, acc =>
    let acc2 := acc ++ [fmtDMRec p]
    if 2 ≤ acc2.length then acc2 else glrAddPeople ps acc2

/-- The `titles[:2]` loop inside the nested `try`: a raise from the people
search is caught and the partial list collected so far is kept. -/
def glrCollectDMs (c : Client) (company_name : String) :
    List String → List DMRec → List DMRec
  | [], acc => acc
  | t :: rest, acc =>
    match c.search_people
        { company_name := some company_name, title := some t } 2 with
    | .error _ => acc
    | .ok people => glrCollectDMs c company_name rest (glrAddPeople people acc)

/-- The update scan: for each update, every technology mentioned in its text
is appended (duplicates across updates included). -/
def techMentionsIn (technologies : List String) : List CompanyUpdate → List String
  | [] => []
  | u :: rest =>
    let text := (((u.value.bind UpdateValue.updateV2).bind UpdateV2.commentary).bind
      Commentary.text).getD ("")
    (technologies.filter (fun tech => strInB (pyLower tech) (pyLower text))) ++
      techMentionsIn technologies rest

/-- The technology-fit classification inside the nested `try`: a raise from
either remote call is caught and leaves the fit at `"Unknown"`. -/
def glrTechFit (c : Client) (company_id company_name : String)
    (technologies : List String) : String :=
  match c.get_company_updates company_id 5 with
  | .error _ => ("Unknown")
  | .ok updates =>
    let mentions := techMentionsIn technologies updates
    if mentions ≠ [] then
      ("High - Mentioned in company updates: ") ++ String.intercalate (", ") mentions
    else
      match c.search_jobs
          { keywords := some (String.intercalate (" ") technologies),
            company_name := some company_name } 5 with
      | .error _ => ("Unknown")
      | .ok jobs =>
        if jobs ≠ [] then ("Medium - Company has job postings with relevant technologies")
        else ("Low - No direct mentions found")

/-- One recommendation record of `generate_lead_recommendations`. -/
def glrRecommendation (c : Client) (technologies : Option (List String))
    (company : Company) : LeadRec :=
  let company_id := urnLast (company.entityUrn.getD (""))
  let company_name := company.name.getD ("Unknown")
  { company_id := company_id,
    company_name := company_name,
    industry := firstIndustry company.industries,
    location := hqCountry company.headquarter,
    size := company.staffCount,
    technology_fit := match technologies with
      | none => ("Unknown")
      | some [] => ("Unknown")
      | some techs => glrTechFit c company_id company_name techs,
    decision_makers := glrCollectDMs c company_name (glrDMTitles.take 2) [],
    company_url := companyUrl company_id }

/-- Tool `generate_lead_recommendations`.  An untruthy industry defaults to
`"Information Technology"`; the company search asks for `limit * 2` hits,
the size filter is applied, and the surviving list is cut to `limit`. -/
def generate_lead_recommendations (c : Client) (industry company_size : Option String)
    (technologies : Option (List String)) (location : Option String) (limit : Nat) :
    ToolResult (List LeadRec) :=
  guardE ("Error generating lead recommendations: ") (do
    let industry := match industry with
      | none => ("Information Technology")
      | some s => if s = ("") then ("Information Technology") else s
    let companies ← c.search_companies
      { keywords := some industry, location := keepTruthy location } (limit * 2)
    let filtered := match company_size with
      | none => companies
      | some cs =>
        if cs = ("") then companies
        else companies.filter (fun company =>
          inSizeRange (company.staffCount.getD 0) (sizeRange (pyLower cs)))
    pure ((filtered.take limit).map (glrRecommendation c technologies)))

/- ---------------------------------------------------------------------- -/
/- Tool: identify_target_accounts.                                        -/
/- ---------------------------------------------------------------------- -/

/-- The description truncation of `identify_target_accounts`: a truthy
description longer than 200 characters is cut and suffixed with `"..."`. -/
def descTruncate : Option String → String
  | some s => if s ≠ ("") ∧ 200 < s.length then (s.take 200) ++ ("...") else s
  | none => ("No description available")

/-- The keyword check of the filter loop: with truthy `keywords`, some
keyword must occur in the (lowercased) description. -/
def itaKeywordOk (keywords : Option (List String)) (description : String) : Bool :=
  match keywords with
  | none => true
  | some [] => true
  | some kws => kws.any (fun keyword => strInB (pyLower keyword) description)

/-- `min_size`/`max_size` bounds on `staff_count` (absent bounds pass). -/
def itaSizeOk (min_size max_size : Option Int) (staff : Int) : Bool :=
  (match min_size with | none => true | some mn => decide (mn ≤ staff)) &&
  (match max_size with | none => true | some mx => decide (staff ≤ mx))

/-- The filter loop of `identify_target_accounts`: size check, keyword
check, append, and break once `limit` companies are collected. -/
def itaFilterGo (keywords : Option (List String)) (min_size max_size : Option Int)
    (limit : Nat) : List Company → List Company → List Company
  | [], acc => acc
  | company :: rest, acc =>
    if itaSizeOk min_size max_size (company.staffCount.getD 0) &&
        itaKeywordOk keywords (pyLower (company.description.getD (""))) then
      let acc2 := acc ++ [company]
      if limit ≤ acc2.length then acc2
      else itaFilterGo keywords min_size max_size limit rest acc2
    else itaFilterGo keywords min_size max_size limit rest acc

/-- Decision-maker titles used by `identify_target_accounts`. -/
def itaDMTitles : List String :=
  [("CTO"), ("CIO"), ("IT Director"), ("VP of Technology")]

/-- The `titles[:2]` loop inside the nested `try` (one search per title
with ceiling 1, no break); a raise keeps the partial list. -/
def itaCollectDMs (c : Client) (company_name : String) :
    List String → List DMRec → List DMRec
  | [], acc => acc
  | t :: rest, acc =>
    match c.search_people
        { company_name := some company_name, title := some t } 1 with
    | .error _ => acc
    | .ok people => itaCollectDMs c company_name rest (acc ++ people.map fmtDMRec)

/-- One account record of `identify_target_accounts`. -/
def itaAccount (c : Client) (technology_interests : Option (List String))
    (company : Company) : AccountRec :=
  let company_id := urnLast (company.entityUrn.getD (""))
  let company_name := company.name.getD ("Unknown")
  let company_description := descTruncate company.description
  let tech_mentions := match technology_interests with
    | none => []
    | some ti =>
      if company_description = ("") then []
      else ti.filter (fun tech => strInB (pyLower tech) (pyLower company_description))
  { company_id := company_id,
    company_name := company_name,
    industry := firstIndustry company.industries,
    location := hqCountry company.headquarter,
    size := company.staffCount,
    description := company_description,
    tech_score := tech_mentions.length,
    tech_mentions := tech_mentions,
    decision_makers := itaCollectDMs c company_name (itaDMTitles.take 2) [],
    company_url := companyUrl company_id }

/-- Tool `identify_target_accounts`: company search for `limit * 3` hits,
filter loop, cut to `limit`, one record per surviving company. -/
def identify_target_accounts (c : Client) (industry : String)
    (keywords : Option (List String)) (location : Option String)
    (min_size max_size : Option Int) (technology_interests : Option (List String))
    (limit : Nat) : ToolResult (List AccountRec) :=
  guardE ("Error identifying target accounts: ") (do
    let companies ← c.search_companies
      { keywords := some industry, location := keepTruthy location } (limit * 3)
    let filtered := itaFilterGo keywords min_size max_size limit companies []
    pure ((filtered.take limit).map (itaAccount c technology_interests)))

/- ---------------------------------------------------------------------- -/
/- Tool: analyze_prospect_profile.                                        -/
/- ---------------------------------------------------------------------- -/

/-- Default `service_keywords` substituted for an untruthy argument. -/
def defaultServiceKeywords : List String :=
  [("cloud"), ("migration"), ("digital transformation"), ("infrastructure"),
   ("security"), ("automation"), ("devops"), ("ai"), ("machine learning"),
   ("data analytics"), ("integration"), ("erp"), ("crm"),
   ("software development"), ("consulting"), ("it services")]

/-- The fixed decision-maker title fragments. -/
def decisionMakerTitles : List String :=
  [("cto"), ("cio"), ("vp"), ("director"), ("chief"), ("head"), ("lead"),
   ("senior"), ("manager")]

/-- The current-job scan shared by `analyze_prospect_profile` and
`generate_sales_outreach_context`: walking the experience list in order,
every entry whose `timePeriod.endDate` is absent overwrites the current
`(company, title)` pair, so the last such entry wins. -/
def currentJob : List Experience → String × String → String × String
  | [], cur => cur
  | exp :: rest, cur =>
    if (exp.timePeriod.bind TimePeriod.endDate).isNone then
      currentJob rest (exp.companyName.getD (""), exp.title.getD (""))
    else currentJob rest cur

/-- The headline pass of the service scan: `+2` per keyword contained in a
truthy headline, the keyword being appended to `service_mentions`. -/
def headlineScan (headline : String) (keywords : List String) :
    List String × Nat :=
  keywords.foldl
    (fun st keyword =>
      if headline ≠ ("") ∧ strIn (pyLower keyword) (pyLower headline) then
        (st.1 ++ [keyword], st.2 + 2)
      else st)
    ([], 0)

/-- The experience/skills passes of the service scan: for each (lowercased)
item and each keyword, `+1` when the keyword occurs in the item and is not
yet mentioned. -/
def scanItems (items keywords : List String) (st : List String × Nat) :
    List String × Nat :=
  items.foldl
    (fun st item =>
      keywords.foldl
        (fun st keyword =>
          if strIn (pyLower keyword) item ∧ keyword ∉ st.1 then
            (st.1 ++ [keyword], st.2 + 1)
          else st)
        st)
    st

/-- The pure body of `analyze_prospect_profile` after the two remote
fetches. -/
def analyzeCore (profile_id : String) (profile : Profile) (skills : List Skill)
    (service_keywords : Option (List String)) : AnalysisRec :=
  let headline := profile.headline.getD ("")
  let kws := match service_keywords with
    | none => defaultServiceKeywords
    | some [] => defaultServiceKeywords
    | some ks => ks
  let exps := profile.experience.getD []
  let cur := currentJob exps ((""), (""))
  let current_company := cur.1
  let current_title := cur.2
  let skill_list := skills.map (fun s => s.name.getD (""))
  let decision_maker_score :=
    decisionMakerTitles.countP (fun t => strInB t (pyLower current_title))
  let is_decision_maker : Bool := decide (0 < decision_maker_score)
  let st1 := headlineScan headline kws
  let st2 := scanItems (exps.map (fun e => pyLower (e.description.getD ("")))) kws st1
  let st3 := scanItems (skill_list.map pyLower) kws st2
  let service_score := st3.2
  let opportunity_score :=
    (if is_decision_maker then 30 else 0) + min (service_score * 5) 50
  let opportunity_level :=
    if 70 ≤ opportunity_score then ("High")
    else if 40 ≤ opportunity_score then ("Medium")
    else ("Low")
  { name := fullNameOfProfile profile,
    headline := headline,
    current_title := current_title,
    current_company := current_company,
    location := profile.locationName.getD (""),
    industry := profile.industryName.getD (""),
    is_decision_maker := is_decision_maker,
    service_interests := st3.1,
    service_score := service_score,
    opportunity_score := opportunity_score,
    opportunity_level := opportunity_level,
    profile_url := profileUrl profile_id,
    skills := skill_list.take 10 }

def analyze_prospect_profile (c : Client) (profile_id : String)
    (service_keywords : Option (List String)) : ToolResult AnalysisRec :=
  guardE ("Error analyzing prospect profile: ") (do
    let profile ← c.get_profile profile_id
    let skills ← c.get_profile_skills profile_id
    pure (analyzeCore profile_id profile skills service_keywords))

/- ---------------------------------------------------------------------- -/
/- Tool: find_companies_using_technologies.                               -/
/- ---------------------------------------------------------------------- -/

/-- The parameter dictionary of `find_companies_using_technologies`: the
first two technologies joined by a space become the keywords. -/
def fctParams (technologies : List String) (industry location : Option String) :
    CompanySearchParams :=
  { keywords := match technologies with
      | [] => none
      | _ => some (String.intercalate (" ") (technologies.take 2)),
    industry := keepTruthy industry,
    location := keepTruthy location }

/-- Phase one of `find_companies_using_technologies`: keep companies whose
description mentions a technology, break once `limit` records exist. -/
def fctPhase1 (technologies : List String) (limit : Nat) :
    List Company → List TechCompanyRec → List TechCompanyRec
  | [], results => results
  | company :: rest, results =>
    let company_id := urnLast (company.entityUrn.getD (""))
    let description := pyLower (company.description.getD (""))
    let tech_mentions :=
      technologies.filter (fun tech => strInB (pyLower tech) description)
    if tech_mentions = [] then fctPhase1 technologies limit rest results
    else
      let results2 := results ++ [{
        id := some company_id,
        name := company.name.getD ("Unknown"),
        industry := firstIndustry company.industries,
        location := hqCountry company.headquarter,
        size := company.staffCount,
        technologies_mentioned := tech_mentions,
        url := companyUrl company_id,
        source := none }]
      if limit ≤ results2.length then results2
      else fctPhase1 technologies limit rest results2

/-- Phase-two job loop: each job's company is fetched inside a nested
`try` (a raise skips the job), duplicates by id are skipped, and the loop
breaks at `limit` records. -/
def fctJobGo (c : Client) (tech : String) (limit : Nat) :
    List JobHit → List TechCompanyRec → List TechCompanyRec
  | [], results => results
  | job :: rest, results =>
    if limit ≤ results.length then results
    else
      match c.get_job (urnLast (job.entityUrn.getD (""))) with
      | .error _ => fctJobGo c tech limit rest results
      | .ok job_data =>
        let company_info :=
          (job_data.companyDetails.bind CompanyDetails.webCompactJobPostingCompany).bind
            WebCompactJobPostingCompany.companyResolutionResult
        let company_id := match company_info.bind CompanyInfo.entityUrn with
          | some u => if u = ("") then none else some (urnLast u)
          | none => none
        let company_name := (company_info.bind CompanyInfo.name).getD ("Unknown")
        if results.any (fun r => r.id == company_id) then
          fctJobGo c tech limit rest results
        else
          fctJobGo c tech limit rest (results ++ [{
            id := company_id,
            name := company_name,
            industry := ("Unknown"),
            location := ("Unknown"),
            size := none,
            technologies_mentioned := [tech],
            url := match company_id with
              | some cid => companyUrl cid
              | none => ("#"),
            source := some ("Job Posting") }])

/-- Phase-two technology loop: one unguarded job search per technology
(`remaining * 2` requested), then the guarded job loop. -/
def fctTechGo (c : Client) (remaining limit : Nat) :
    List String → List TechCompanyRec → Except String (List TechCompanyRec)
  | [], results => .ok results
  | tech :: rest, results =>
    if limit ≤ results.length then .ok results
    else do
      let jobs ← c.search_jobs { keywords := some tech } (remaining * 2)
      fctTechGo c remaining limit rest (fctJobGo c tech limit jobs results)

/-- Tool `find_companies_using_technologies`. -/
def find_companies_using_technologies (c : Client) (technologies : List String)
    (industry location : Option String) (limit : Nat) :
    ToolResult (List TechCompanyRec) :=
  guardE ("Error finding companies using technologies: ") (do
    let companies ← c.search_companies (fctParams technologies industry location)
      (limit * 3)
    let results := fctPhase1 technologies limit (companies.take (limit * 3)) []
    if results.length < limit then
      fctTechGo c (limit - results.length) limit technologies results
    else pure results)

/- ---------------------------------------------------------------------- -/
/- Tool: find_common_connections.                                         -/
/- ---------------------------------------------------------------------- -/

/-- The intersection loop shared by companies/schools/skills: walk `l1` and
append every element also in `l2` that is not yet collected. -/
def commonGo (l2 : List String) : List String → List String → List String
  | [], acc => acc
  | x :: rest, acc =>
    if x ∈ l2 ∧ x ∉ acc then commonGo l2 rest (acc ++ [x])
    else commonGo l2 rest acc

/-- Lowercased company names of a profile's experience list. -/
def expCompanies (p : Profile) : List String :=
  (p.experience.getD []).map (fun exp => pyLower (exp.companyName.getD ("")))

/-- Lowercased school names of a profile's education list. -/
def eduSchools (p : Profile) : List String :=
  (p.education.getD []).map (fun edu => pyLower (edu.schoolName.getD ("")))

/-- Lowercased skill names. -/
def skillNames (skills : List Skill) : List String :=
  skills.map (fun s => pyLower (s.name.getD ("")))

/-- The pure body of `find_common_connections` after the four remote
fetches. -/
def fccCore (profile_id1 profile_id2 : String) (profile1 profile2 : Profile)
    (skills1 skills2 : List Skill) (limit : Nat) : CommonRec :=
  let common_companies := commonGo (expCompanies profile2) (expCompanies profile1) []
  let common_schools := commonGo (eduSchools profile2) (eduSchools profile1) []
  let common_skills := commonGo (skillNames skills2) (skillNames skills1) []
  { profile1 := { id := profile_id1, name := fullNameOfProfile profile1,
                  url := profileUrl profile_id1 },
    profile2 := { id := profile_id2, name := fullNameOfProfile profile2,
                  url := profileUrl profile_id2 },
    common_companies := common_companies,
    common_schools := common_schools,
    common_skills := common_skills.take limit,
    connection_strength :=
      common_companies.length + common_schools.length + min common_skills.length 5 }

def find_common_connections (c : Client) (profile_id1 profile_id2 : String)
    (limit : Nat) : ToolResult CommonRec :=
  guardE ("Error finding common connections: ") (do
    let profile1 ← c.get_profile profile_id1
    let profile2 ← c.get_profile profile_id2
    let skills1 ← c.get_profile_skills profile_id1
    let skills2 ← c.get_profile_skills profile_id2
    pure (fccCore profile_id1 profile_id2 profile1 profile2 skills1 skills2 limit))

/- ---------------------------------------------------------------------- -/
/- Tool: find_recent_job_changes.                                         -/
/- ---------------------------------------------------------------------- -/

/-- The parameter dictionary of `find_recent_job_changes` (the first title
keyword, when present, becomes the upstream title filter). -/
def rjcParams (industry : Option String) (title_keywords : Option (List String))
    (location : Option String) : PeopleSearchParams :=
  { industry := keepTruthy industry,
    location_name := keepTruthy location,
    title := match title_keywords with | some (k :: _) => some k | _ => none }

/-- With truthy `title_keywords`, the current title must contain one of
them (case-insensitively); otherwise no title constraint applies. -/
def titleMatches (title_keywords : Option (List String)) (current_title : String) :
    Bool :=
  match title_keywords with
  | none => true
  | some [] => true
  | some kws =>
    kws.any (fun keyword => strInB (pyLower keyword) (pyLower current_title))

/-- Python truthiness of the `startDate` dictionary: absent or empty is
falsy (within the modelled key set, empty means both keys absent). -/
def sdTruthy : Option StartD → Bool
  | none => false
  | some sd => sd.year.isSome || sd.month.isSome

/-- One output record of `find_recent_job_changes`. -/
def mkJobChangeRec (person : Person) (profile : Profile)
    (current_title current_company previous_company : String) : JobChangeRec :=
  { id := person.public_id.getD (""),
    name := fullNameOfProfile profile,
    current_title := current_title,
    current_company := current_company,
    previous_company := previous_company,
    location := profile.locationName.getD (""),
    url := profileUrl (person.public_id.getD ("")) }

/-- The person loop of `find_recent_job_changes`: fetch each profile inside
a nested `try` (a raise skips the person), require two experiences, a
case-insensitive company change, a title-keyword match when requested, a
truthy `startDate` and a start year `>= 2024`; append and break once
`limit` records are collected.  There is no final `[:limit]` cut. -/
def rjcGo (c : Client) (title_keywords : Option (List String)) (limit : Nat) :
    List Person → List JobChangeRec → List JobChangeRec
  | [], acc => acc
  | person :: rest, acc =>
    match c.get_profile (person.public_id.getD ("")) with
    | .error _ => rjcGo c title_keywords limit rest acc
    | .ok profile =>
      match profile.experience.getD [] with
      | current_exp :: previous_exp :: _ =>
        let current_company := current_exp.companyName.getD ("")
        let current_title := current_exp.title.getD ("")
        let previous_company := previous_exp.companyName.getD ("")
        if pyLower current_company = pyLower previous_company then
          rjcGo c title_keywords limit rest acc
        else if titleMatches title_keywords current_title then
          let current_start := current_exp.timePeriod.bind TimePeriod.startDate
          if sdTruthy current_start then
            if 2024 ≤ ((current_start.bind StartD.year).getD 0) then
              let acc2 := acc ++ [mkJobChangeRec person profile current_title
                current_company previous_company]
              if limit ≤ acc2.length then acc2
              else rjcGo c title_keywords limit rest acc2
            else rjcGo c title_keywords limit rest acc
          else rjcGo c title_keywords limit rest acc
        else rjcGo c title_keywords limit rest acc
      | _ => rjcGo c title_keywords limit rest acc

/-- Tool `find_recent_job_changes`: people search for `limit * 3` hits,
then the person loop. -/
def find_recent_job_changes (c : Client) (industry : Option String)
    (title_keywords : Option (List String)) (location : Option String)
    (limit : Nat) : ToolResult (List JobChangeRec) :=
  guardE ("Error finding recent job changes: ") (do
    let people ← c.search_people (rjcParams industry title_keywords location)
      (limit * 3)
    pure (rjcGo c title_keywords limit people []))

/- ---------------------------------------------------------------------- -/
/- Tool: generate_sales_outreach_context.                                 -/
/- ---------------------------------------------------------------------- -/

/-- The activity scan inside a nested `try`: a raise from the posts fetch
leaves an empty activity list; post texts are cut at 100 characters and
always suffixed with `"..."`. -/
def soActivity (c : Client) (profile_id : String) : List ActivityRec :=
  match c.get_profile_posts profile_id 3 with
  | .error _ => []
  | .ok posts => posts.map (fun post =>
      { typ := ("post"),
        content := (((post.commentary.bind Commentary.text).getD ("")).take 100)
          ++ ("...") })

/-- The company lookup inside a nested `try`: only run for a truthy current
company, and any raise or empty search leaves the empty dictionary. -/
def soCompanyDetails (c : Client) (current_company : String) :
    Option CompanyBriefRec :=
  if current_company = ("") then none
  else match c.search_companies { keywords := some current_company } 1 with
    | .error _ => none
    | .ok [] => none
    | .ok (company :: _) =>
      some { id := urnLast (company.entityUrn.getD ("")),
             name := current_company,
             size := company.staffCount,
             industry := firstIndustry company.industries }

/-- Skills related to the service offering: each skill containing one of
the whitespace-split service words, collected without duplicates. -/
def soServiceSkills (company_service : String) (skill_list : List String) :
    List String :=
  let service_keywords := pyWords (pyLower company_service)
  skill_list.foldl
    (fun acc skill =>
      if service_keywords.any (fun keyword => strInB (pyLower keyword) (pyLower skill))
          && !(acc.contains skill) then
        acc ++ [skill]
      else acc)
    []

/-- The personalization points, in source order: role, related skills,
education (when the first school is truthy), career progression. -/
def soPoints (current_title current_company : String) (srs : List String)
    (education : List EduBriefRec) (experience : List ExpBriefRec) : List PointRec :=
  (if current_title ≠ ("") then
     [{ typ := ("role"),
        context := ("Current role as ") ++ current_title ++ (" at ") ++ current_company }]
   else []) ++
  (if srs ≠ [] then
     [{ typ := ("skills"),
        context := ("Skills related to your services: ") ++
          String.intercalate (", ") srs }]
   else []) ++
  (match education with
   | edu :: _ =>
     if edu.school ≠ ("") then
       [{ typ := ("education"),
          context := ("Educational background: ") ++ edu.degree ++ (" in ") ++
            edu.field ++ (" from ") ++ edu.school }]
     else []
   | [] => []) ++
  (if 2 ≤ experience.length then
     [{ typ := ("career"),
        context := ("Career progression: ") ++ String.intercalate (" → ")
          ((experience.take 3).map (fun exp => exp.title ++ (" at ") ++ exp.company)) }]
   else [])

/-- The conversation starters, in source order; the third and fourth are
conditional on related skills and education. -/
def soStarters (current_company current_title : String) (skill_list : List String)
    (srs : List String) (education : List EduBriefRec) : List String :=
  [("I noticed you\x27ve been at ") ++ current_company ++ (" as ") ++ current_title ++
     (". How has your experience been so far?"),
   ("I saw you have expertise in ") ++ String.intercalate (", ") (skill_list.take 2) ++
     (". What projects are you currently focused on?")] ++
  (match srs with
   | s :: _ => [("Your experience with ") ++ s ++
       (" caught my attention. Have you been working on any initiatives related to this recently?")]
   | [] => []) ++
  (match education with
   | edu :: _ => [("I see we share an interest in ") ++ edu.field ++
       (". What drew you to that field?")]
   | [] => [])

def generate_sales_outreach_context (c : Client) (profile_id company_service : String) :
    ToolResult OutreachRec :=
  guardE ("Error generating sales outreach context: ") (do
    let profile ← c.get_profile profile_id
    let skills ← c.get_profile_skills profile_id
    let exps := (profile.experience.getD []).map (fun exp =>
      ({ company := exp.companyName.getD (""), title := exp.title.getD ("") } : ExpBriefRec))
    let cur := currentJob (profile.experience.getD []) ((""), (""))
    let education := (profile.education.getD []).map (fun edu =>
      ({ school := edu.schoolName.getD (""), degree := edu.degreeName.getD (""),
         field := edu.fieldOfStudy.getD ("") } : EduBriefRec))
    let skill_list := skills.map (fun s => s.name.getD (""))
    let srs := soServiceSkills company_service skill_list
    pure {
      prospect := { name := fullNameOfProfile profile, title := cur.2,
                    company := cur.1, headline := profile.headline.getD (""),
                    url := profileUrl profile_id },
      company_details := soCompanyDetails c cur.1,
      top_skills := skill_list.take 5,
      education_background := education,
      experience_summary := exps.take 3,
      recent_activity := soActivity c profile_id,
      common_connections := [],
      personalization_points := soPoints cur.2 cur.1 srs education exps,
      conversation_starters := soStarters cur.1 cur.2 skill_list srs education })

/- ---------------------------------------------------------------------- -/
/- Concrete clients and records used to evaluate the tools.               -/
/- ---------------------------------------------------------------------- -/

/-- A client whose every remote method raises. -/
def cFail : Client :=
  { search_people := fun _ _ => .error ("boom"),
    search_companies := fun _ _ => .error ("boom"),
    search_jobs := fun _ _ => .error ("boom"),
    get_job := fun _ => .error ("boom"),
    get_company := fun _ => .error ("boom"),
    get_company_updates := fun _ _ => .error ("boom"),
    get_profile := fun _ => .error ("boom"),
    get_profile_skills := fun _ => .error ("boom"),
    get_profile_posts := fun _ _ => .error ("boom"),
    get_feed_posts := fun _ _ => .error ("boom") }

/-- A client whose every remote method succeeds with empty/default data. -/
def cEmpty : Client :=
  { search_people := fun _ _ => .ok [],
    search_companies := fun _ _ => .ok [],
    search_jobs := fun _ _ => .ok [],
    get_job := fun _ => .ok {},
    get_company := fun _ => .ok {},
    get_company_updates := fun _ _ => .ok [],
    get_profile := fun _ => .ok {},
    get_profile_skills := fun _ => .ok [],
    get_profile_posts := fun _ _ => .ok [],
    get_feed_posts := fun _ _ => .ok [] }

/-- A client returning two companies from any company search (more than a
caller limit of 1). -/
def cTwoCompanies : Client :=
  { cEmpty with search_companies := fun _ _ => .ok [{}, {}] }

/-- A client returning one job hit whose job record has no `title` key. -/
def cJobBad : Client :=
  { cEmpty with
    search_jobs := fun _ _ => .ok [{ entityUrn := some ("urn:li:jobPosting:1") }] }

def personW : Person := { public_id := some ("alice-w") }

def expNewW : Experience :=
  { companyName := some ("NewCo"), title := some ("CTO"),
    timePeriod := some { startDate := some { year := some 2024, month := some 3 } } }

def expOldW : Experience :=
  { companyName := some ("OldCo"), title := some ("Engineer") }

def profileW : Profile :=
  { firstName := some ("Alice"), lastName := some ("W"),
    experience := some [expNewW, expOldW] }

/-- A client whose people search yields one person whose profile shows a
2024 job change. -/
def cJobChange : Client :=
  { cEmpty with
    search_people := fun _ _ => .ok [personW],
    get_profile := fun _ => .ok profileW }

def profileA : Profile :=
  { firstName := some ("Ann"),
    experience := some [{ companyName := some ("Acme") }],
    education := some [{ schoolName := some ("MIT") }] }

def profileB : Profile :=
  { firstName := some ("Bob"),
    experience := some [{ companyName := some ("ACME") }, { companyName := some ("Zeta") }],
    education := some [{ schoolName := some ("mit") }] }

/-- A client serving `profileA` for profile id "a" and `profileB` otherwise. -/
def cSwap : Client :=
  { cEmpty with
    get_profile := fun pid => if pid = ("a") then .ok profileA else .ok profileB }

def personA : Person := { public_id := some ("p1") }

def personB : Person := { public_id := some ("p2") }

def personC : Person := { public_id := some ("p3") }

/-- A client whose people search yields three hits and whose skill fetches
succeed with the empty list. -/
def cPeopleThree : Client :=
  { cEmpty with search_people := fun _ _ => .ok [personA, personB, personC] }

/-- A profile whose headline hits four default service keywords and whose
current title is a decision-maker title. -/
def profileHigh : Profile :=
  { headline := some ("cloud migration security devops"),
    experience := some [{ title := some ("CTO") }] }

/- ---------------------------------------------------------------------- -/
/- Claim-side predicates (used to state C4/C5).                           -/
/- ---------------------------------------------------------------------- -/

/-- The headline condition of the service scan. -/
abbrev headlineHit (headline keyword : String) : Prop :=
  headline ≠ ("") ∧ strIn (pyLower keyword) (pyLower headline)

/-- The lowercased experience descriptions scanned by
`analyze_prospect_profile`. -/
abbrev expDescsOf (profile : Profile) : List String :=
  (profile.experience.getD []).map (fun e => pyLower (e.description.getD ("")))

/-- The lowercased skill names scanned by `analyze_prospect_profile`. -/
abbrev skillItemsOf (skills : List Skill) : List String :=
  (skills.map (fun s => s.name.getD (""))).map pyLower

/-- A keyword occurring in some experience description or skill name. -/
abbrev elseHit (profile : Profile) (skills : List Skill) (keyword : String) : Prop :=
  ∃ item ∈ expDescsOf profile ++ skillItemsOf skills, strIn (pyLower keyword) item

/- ---------------------------------------------------------------------- -/
/- Helper lemmas.                                                         -/
/- ---------------------------------------------------------------------- -/

theorem strAssoc (a b c : String) : (a ++ b) ++ c = a ++ (b ++ c) := by
  apply String.ext
  simp [String.data_append, List.append_assoc]

theorem except_bind_ok {α β : Type} (a : α) (f : α → Except String β) :
    ((Except.ok a : Except String α) >>= f) = f a := rfl

theorem except_bind_err {α β : Type} (e : String) (f : α → Except String β) :
    ((Except.error e : Except String α) >>= f) = Except.error e := rfl

theorem except_pure_eq {α : Type} (a : α) :
    (pure a : Except String α) = Except.ok a := rfl

theorem guardE_errOk {α : Type} (pre : String) (h : ∃ t, pre = ("Error") ++ t)
    (body : Except String α) : errOk (guardE pre body) := by
  cases body with
  | ok a => trivial
  | error e =>
    obtain ⟨t, ht⟩ := h
    show beginsWithError (pre ++ e)
    exact ⟨t ++ e, by rw [ht, strAssoc]⟩

theorem guardE2_errOk {α : Type} (pre : String) (h : ∃ t, pre = ("Error") ++ t)
    (body : Except String (Sum String α)) : errOk (guardE2 pre body) := by
  cases body with
  | ok a =>
    cases a with
    | inl s => trivial
    | inr b => trivial
  | error e =>
    obtain ⟨t, ht⟩ := h
    show beginsWithError (pre ++ e)
    exact ⟨t ++ e, by rw [ht, strAssoc]⟩

theorem guardE_ne_raised {α : Type} (pre : String) (body : Except String α)
    (e : String) : guardE pre body ≠ ToolResult.raised e := by
  cases body <;> simp [guardE]

/- ---------------------------------------------------------------------- -/
/- Claim C1.                                                              -/
/- ---------------------------------------------------------------------- -/

/-- C1 counterexample: `search_jobs` has no exception guard, so a raise
from the remote job search propagates to the caller instead of being turned
into an `"Error"`-prefixed string, refuting the claim that every tool
(including `search_jobs`) converts remote-client exceptions to strings. -/
theorem C1_counterexample :
    search_jobs cFail ("kw") 3 0 ("") = ToolResult.raised ("boom") := rfl

/-- C1 (amended): every tool except `search_jobs` converts a remote-client
raise reaching its outer guard into a string beginning with `"Error"` and
never propagates it; for `get_feed_posts` the remote call is guarded (only
its formatting loop is not).  `search_jobs` alone propagates. -/
theorem C1_amended_thm :
    (∀ (c : Client) (kw : String) (ind loc : Option String) (lim : Nat),
      errOk (search_companies c kw ind loc lim)) ∧
    (∀ (c : Client) (cid : String), errOk (get_company_details c cid)) ∧
    (∀ (c : Client) (kw t co ind loc sch sk : Option String) (lim : Nat),
      errOk (search_people c kw t co ind loc sch sk lim)) ∧
    (∀ (c : Client) (pid : String), errOk (get_profile_details c pid)) ∧
    (∀ (c : Client) (cid : String) (t : Option String) (lim : Nat),
      errOk (search_company_employees c cid t lim)) ∧
    (∀ (c : Client) (skills : List String) (t ind loc : Option String) (lim : Nat),
      errOk (search_people_by_skills c skills t ind loc lim)) ∧
    (∀ (c : Client) (cid : String) (lim : Nat),
      errOk (get_company_updates c cid lim)) ∧
    (∀ (c : Client) (cid : String) (titles : Option (List String)) (lim : Nat),
      errOk (find_decision_makers c cid titles lim)) ∧
    (∀ (c : Client) (ind cs : Option String) (techs : Option (List String))
      (loc : Option String) (lim : Nat),
      errOk (generate_lead_recommendations c ind cs techs loc lim)) ∧
    (∀ (c : Client) (ind : String) (kws : Option (List String)) (loc : Option String)
      (mn mx : Option Int) (ti : Option (List String)) (lim : Nat),
      errOk (identify_target_accounts c ind kws loc mn mx ti lim)) ∧
    (∀ (c : Client) (pid : String) (sk : Option (List String)),
      errOk (analyze_prospect_profile c pid sk)) ∧
    (∀ (c : Client) (techs : List String) (ind loc : Option String) (lim : Nat),
      errOk (find_companies_using_technologies c techs ind loc lim)) ∧
    (∀ (c : Client) (p1 p2 : String) (lim : Nat),
      errOk (find_common_connections c p1 p2 lim)) ∧
    (∀ (c : Client) (ind : Option String) (tks : Option (List String))
      (loc : Option String) (lim : Nat),
      errOk (find_recent_job_changes c ind tks loc lim)) ∧
    (∀ (c : Client) (pid svc : String),
      errOk (generate_sales_outreach_context c pid svc)) ∧
    (∀ (c : Client) (lim off : Nat) (e : String),
      c.get_feed_posts lim off = Except.error e →
      get_feed_posts c lim off = ToolResult.caught (("Error: ") ++ e) ∧
      beginsWithError (("Error: ") ++ e)) := by
  refine ⟨?_, ?_, ?_, ?_, ?_, ?_, ?_, ?_, ?_, ?_, ?_, ?_, ?_, ?_, ?_, ?_⟩
  · intro c kw ind loc lim
    exact guardE_errOk _ ⟨(" searching companies: "), rfl⟩ _
  · intro c cid
    exact guardE_errOk _ ⟨(" getting company details: "), rfl⟩ _
  · intro c kw t co ind loc sch sk lim
    exact guardE_errOk _ ⟨(" searching people: "), rfl⟩ _
  · intro c pid
    exact guardE_errOk _ ⟨(" getting profile details: "), rfl⟩ _
  · intro c cid t lim
    exact guardE2_errOk _ ⟨(" searching company employees: "), rfl⟩ _
  · intro c skills t ind loc lim
    exact guardE_errOk _ ⟨(" searching people by skills: "), rfl⟩ _
  · intro c cid lim
    exact guardE_errOk _ ⟨(" getting company updates: "), rfl⟩ _
  · intro c cid titles lim
    exact guardE2_errOk _ ⟨(" finding decision makers: "), rfl⟩ _
  · intro c ind cs techs loc lim
    exact guardE_errOk _ ⟨(" generating lead recommendations: "), rfl⟩ _
  · intro c ind kws loc mn mx ti lim
    exact guardE_errOk _ ⟨(" identifying target accounts: "), rfl⟩ _
  · intro c pid sk
    exact guardE_errOk _ ⟨(" analyzing prospect profile: "), rfl⟩ _
  · intro c techs ind loc lim
    exact guardE_errOk _ ⟨(" finding companies using technologies: "), rfl⟩ _
  · intro c p1 p2 lim
    exact guardE_errOk _ ⟨(" finding common connections: "), rfl⟩ _
  · intro c ind tks loc lim
    exact guardE_errOk _ ⟨(" finding recent job changes: "), rfl⟩ _
  · intro c pid svc
    exact guardE_errOk _ ⟨(" generating sales outreach context: "), rfl⟩ _
  · intro c lim off e h
    refine ⟨?_, ⟨(": ") ++ e, ?_⟩⟩
    · simp [get_feed_posts, h]
    · rw [show ("Error: ") = ("Error") ++ (": ") from rfl, strAssoc]

/-- C1 witness: at the all-failing client, the theorem yields that
`get_feed_posts` returns the caught `"Error: boom"` string. -/
theorem C1_witness :
    get_feed_posts cFail 10 0 = ToolResult.caught (("Error: ") ++ ("boom")) ∧
    beginsWithError (("Error: ") ++ ("boom")) :=
  C1_amended_thm.2.2.2.2.2.2.2.2.2.2.2.2.2.2.2 cFail 10 0 ("boom") rfl

/- ---------------------------------------------------------------------- -/
/- Claim C3.                                                              -/
/- ---------------------------------------------------------------------- -/

/-- C3 counterexample: at a client whose job search returns one hit and
whose job record lacks the `title` key, `search_jobs` raises a `KeyError`
that propagates, refuting the claim that every tool tolerates absent
optional upstream fields. -/
theorem C3_counterexample :
    search_jobs cJobBad ("kw") 3 0 ("") =
      ToolResult.raised (("KeyError: ") ++ ("title")) := rfl

/-- C3 (amended): `search_people` defaults `current_company` to `""` for a
hit with no experience entries and never propagates an exception; but
`search_jobs` reads `title` (and the other job fields) by direct indexing,
so a job record missing `title` raises a `KeyError` instead of defaulting. -/
theorem C3_amended_thm :
    (∀ person : Person,
      person.experience = none ∨ person.experience = some [] →
      (fmtPersonSP person).company = ("")) ∧
    (∀ (c : Client) (kw t co ind loc sch sk : Option String) (lim : Nat) (e : String),
      search_people c kw t co ind loc sch sk lim ≠ ToolResult.raised e) ∧
    (∀ job_data : JobData, job_data.title = none →
      jobLine job_data = Except.error (("KeyError: ") ++ ("title"))) := by
  refine ⟨?_, ?_, ?_⟩
  · rintro person (h | h) <;> simp [fmtPersonSP, currentCompanyOf, h]
  · intro c kw t co ind loc sch sk lim e
    exact guardE_ne_raised _ _ _
  · intro jd h
    simp only [jobLine, h, keyGet, except_bind_err]

/-- C3 witness: a hit with no experience key gets `company = ""`, and a job
record with no title makes the per-job extraction raise. -/
theorem C3_witness :
    (fmtPersonSP {}).company = ("") ∧
    jobLine {} = Except.error (("KeyError: ") ++ ("title")) :=
  ⟨C3_amended_thm.1 {} (Or.inl rfl), C3_amended_thm.2.2 {} rfl⟩

/- ---------------------------------------------------------------------- -/
/- Claim C10.                                                             -/
/- ---------------------------------------------------------------------- -/

/-- C10: calling `find_decision_makers` with `titles = []` behaves
identically to `titles = None`: both are untruthy and are replaced by the
default seven-title list before any search. -/
theorem C10_thm (c : Client) (company_id : String) (lim : Nat) :
    find_decision_makers c company_id (some []) lim =
    find_decision_makers c company_id none lim := rfl

/- ---------------------------------------------------------------------- -/
/- Claim C2: length bounds.                                               -/
/- ---------------------------------------------------------------------- -/

theorem resultRecords_caught {α : Type} (s : String) :
    resultRecords (ToolResult.caught s : ToolResult (List α)) = [] := rfl

theorem sbsFormat_len (c : Client) (skills : List String) :
    ∀ (ps : List Person) (rs : List SkillPersonRec),
      sbsFormat c skills ps = Except.ok rs → rs.length = ps.length := by
  intro ps
  induction ps with
  | nil =>
    intro rs h
    simp only [sbsFormat] at h
    cases h
    rfl
  | cons p rest ih =>
    intro rs h
    simp only [sbsFormat] at h
    cases hg : c.get_profile_skills (p.public_id.getD ("")) with
    | error e => rw [hg] at h; simp [except_bind_err] at h
    | ok sk =>
      rw [hg] at h
      simp only [except_bind_ok] at h
      cases ht : sbsFormat c skills rest with
      | error e => rw [ht] at h; simp [except_bind_err] at h
      | ok tail =>
        rw [ht] at h
        simp only [except_bind_ok, except_pure_eq] at h
        cases h
        simp [ih tail ht]

theorem fctPhase1_len (technologies : List String) (lim : Nat) :
    ∀ (l : List Company) (acc : List TechCompanyRec),
      acc.length < lim → (fctPhase1 technologies lim l acc).length ≤ lim := by
  intro l
  induction l with
  | nil => intro acc h; simpa [fctPhase1] using Nat.le_of_lt h
  | cons company rest ih =>
    intro acc h
    simp only [fctPhase1]
    split
    · exact ih acc h
    · split
      · simpa using h
      · rename_i hlt
        exact ih _ (by simpa using Nat.lt_of_not_le (by simpa using hlt))

theorem fctJobGo_len (c : Client) (tech : String) (lim : Nat) :
    ∀ (jobs : List JobHit) (acc : List TechCompanyRec),
      acc.length ≤ lim → (fctJobGo c tech lim jobs acc).length ≤ lim := by
  intro jobs
  induction jobs with
  | nil => intro acc h; simpa [fctJobGo] using h
  | cons job rest ih =>
    intro acc h
    simp only [fctJobGo]
    split
    · exact h
    · rename_i hnot
      have hlt : acc.length < lim := Nat.lt_of_not_le (by simpa using hnot)
      cases hg : c.get_job (urnLast (job.entityUrn.getD (""))) with
      | error e => exact ih acc h
      | ok jd =>
        simp only []
        split
        · exact ih acc h
        · exact ih _ (by simpa using hlt)

theorem fctTechGo_len (c : Client) (remaining lim : Nat) :
    ∀ (techs : List String) (acc : List TechCompanyRec) (rs : List TechCompanyRec),
      acc.length ≤ lim → fctTechGo c remaining lim techs acc = Except.ok rs →
      rs.length ≤ lim := by
  intro techs
  induction techs with
  | nil =>
    intro acc rs h hok
    simp only [fctTechGo] at hok
    cases hok
    exact h
  | cons tech rest ih =>
    intro acc rs h hok
    simp only [fctTechGo] at hok
    split at hok
    · cases hok; exact h
    · cases hs : c.search_jobs { keywords := some tech } (remaining * 2) with
      | error e => rw [hs] at hok; simp [except_bind_err] at hok
      | ok jobs =>
        rw [hs] at hok
        simp only [except_bind_ok] at hok
        exact ih _ rs (fctJobGo_len c tech lim jobs acc h) hok

theorem rjcGo_len (c : Client) (tks : Option (List String)) (lim : Nat) :
    ∀ (ps : List Person) (acc : List JobChangeRec),
      acc.length < lim → (rjcGo c tks lim ps acc).length ≤ lim := by
  intro ps
  induction ps with
  | nil => intro acc h; simpa [rjcGo] using Nat.le_of_lt h
  | cons person rest ih =>
    intro acc h
    simp only [rjcGo]
    cases hg : c.get_profile (person.public_id.getD ("")) with
    | error e => exact ih acc h
    | ok profile =>
      simp only []
      split
      · split
        · exact ih acc h
        · split
          · split
            · split
              · split
                · simpa using h
                · rename_i hnot
                  exact ih _ (by simpa using Nat.lt_of_not_le (by simpa using hnot))
              · exact ih acc h
            · exact ih acc h
          · exact ih acc h
      · exact ih acc h

/-- C2 counterexample: `search_companies` does not truncate: at a client
returning two companies for a requested limit of 1, the tool returns two
records, refuting the claim that every list-valued tool returns at most
`limit` records for every possible client response. -/
theorem C2_counterexample :
    ¬ ((resultRecords (search_companies cTwoCompanies ("k") none none 1)).length ≤ 1) := by
  decide

/-- C2 (amended): the truncating list tools — `search_people` with a truthy
skill filter, `search_people_by_skills`, `find_decision_makers`,
`generate_lead_recommendations`, `identify_target_accounts`,
`find_companies_using_technologies`, and `find_recent_job_changes` with a
positive limit — return at most `limit` records for every client response;
`search_companies` (see the counterexample) and `search_people` without a
truthy skill filter format the client's list whole. -/
theorem C2_amended_thm :
    (∀ (c : Client) (kw t co ind loc sch : Option String) (sk : String) (lim : Nat),
      sk ≠ ("") →
      (resultRecords (search_people c kw t co ind loc sch (some sk) lim)).length ≤ lim) ∧
    (∀ (c : Client) (skills : List String) (t ind loc : Option String) (lim : Nat),
      (resultRecords (search_people_by_skills c skills t ind loc lim)).length ≤ lim) ∧
    (∀ (c : Client) (cid : String) (titles : Option (List String)) (lim : Nat),
      (resultRecords (find_decision_makers c cid titles lim)).length ≤ lim) ∧
    (∀ (c : Client) (ind cs : Option String) (techs : Option (List String))
      (loc : Option String) (lim : Nat),
      (resultRecords (generate_lead_recommendations c ind cs techs loc lim)).length ≤ lim) ∧
    (∀ (c : Client) (ind : String) (kws : Option (List String)) (loc : Option String)
      (mn mx : Option Int) (ti : Option (List String)) (lim : Nat),
      (resultRecords (identify_target_accounts c ind kws loc mn mx ti lim)).length ≤ lim) ∧
    (∀ (c : Client) (techs : List String) (ind loc : Option String) (lim : Nat),
      (resultRecords (find_companies_using_technologies c techs ind loc lim)).length ≤ lim) ∧
    (∀ (c : Client) (ind : Option String) (tks : Option (List String))
      (loc : Option String) (lim : Nat), 1 ≤ lim →
      (resultRecords (find_recent_job_changes c ind tks loc lim)).length ≤ lim) := by
  refine ⟨?_, ?_, ?_, ?_, ?_, ?_, ?_⟩
  · intro c kw t co ind loc sch sk lim hsk
    simp only [search_people]
    cases hs : c.search_people (spParams kw t co ind loc sch) lim with
    | error e => simp [hs, except_bind_err, guardE, resultRecords]
    | ok people =>
      simp only [hs, except_bind_ok]
      cases people with
      | nil =>
        simp [guardE, resultRecords, except_bind_ok, except_pure_eq]
      | cons p ps =>
        have hb : (sk == ("")) = false := beq_eq_false_iff_ne.mpr hsk
        simp only [truthyOS, hb, Bool.not_false, List.isEmpty_cons, Bool.and_true,
          Option.getD_some, if_true]
        cases hf : spSkillFilter c sk (p :: ps) [] with
        | error e => simp [hf, except_bind_err, guardE, resultRecords]
        | ok filtered =>
          simp [hf, except_bind_ok, except_pure_eq, guardE, resultRecords,
            List.length_take]
  · intro c skills t ind loc lim
    simp only [search_people_by_skills]
    cases hs : c.search_people
        { title := keepTruthy t, industry := keepTruthy ind,
          location_name := keepTruthy loc,
          keywords := match skills with | [] => none | s :: _ => some s }
        (lim * 2) with
    | error e => simp [hs, except_bind_err, guardE, resultRecords]
    | ok people =>
      simp only [hs, except_bind_ok]
      cases hf : sbsFilter c skills lim people [] with
      | error e => simp [hf, except_bind_err, guardE, resultRecords]
      | ok filtered =>
        simp only [hf, except_bind_ok]
        cases hm : sbsFormat c skills (filtered.take lim) with
        | error e => simp [hm, guardE, resultRecords]
        | ok rs =>
          simp only [hm, guardE, resultRecords]
          calc rs.length = (filtered.take lim).length := sbsFormat_len c skills _ rs hm
            _ ≤ lim := by simp [List.length_take]
  · intro c cid titles lim
    simp only [find_decision_makers]
    cases hc : c.get_company cid with
    | error e => simp [hc, except_bind_err, guardE2, resultRecords]
    | ok company =>
      simp only [hc, except_bind_ok]
      split
      · simp [guardE2, resultRecords, except_pure_eq]
      · cases hf : fdmSearchGo c (company.name.getD (""))
            (lim / (match titles with
              | none => defaultDMTitles
              | some [] => defaultDMTitles
              | some ts => ts).length + 1) lim
            (match titles with
              | none => defaultDMTitles
              | some [] => defaultDMTitles
              | some ts => ts) [] with
        | error e => simp [hf, except_bind_err, guardE2, resultRecords]
        | ok dms =>
          simp [hf, except_bind_ok, except_pure_eq, guardE2, resultRecords,
            List.length_take]
  · intro c ind cs techs loc lim
    simp only [generate_lead_recommendations]
    cases hs : c.search_companies
        { keywords := some (match ind with
            | none => ("Information Technology")
            | some s => if s = ("") then ("Information Technology") else s),
          location := keepTruthy loc } (lim * 2) with
    | error e => simp [hs, except_bind_err, guardE, resultRecords]
    | ok companies =>
      simp [hs, except_bind_ok, except_pure_eq, guardE, resultRecords,
        List.length_take]
  · intro c ind kws loc mn mx ti lim
    simp only [identify_target_accounts]
    cases hs : c.search_companies
        { keywords := some ind, location := keepTruthy loc } (lim * 3) with
    | error e => simp [hs, except_bind_err, guardE, resultRecords]
    | ok companies =>
      simp [hs, except_bind_ok, except_pure_eq, guardE, resultRecords,
        List.length_take]
  · intro c techs ind loc lim
    simp only [find_companies_using_technologies]
    cases hs : c.search_companies (fctParams techs ind loc) (lim * 3) with
    | error e => simp [hs, except_bind_err, guardE, resultRecords]
    | ok companies =>
      simp only [hs, except_bind_ok]
      rcases Nat.eq_zero_or_pos lim with h0 | hpos
      · subst h0
        simp [fctPhase1, guardE, resultRecords, except_pure_eq, fctTechGo]
      · have hp1 : (fctPhase1 techs lim (companies.take (lim * 3)) []).length ≤ lim :=
          fctPhase1_len techs lim _ [] (by simpa using hpos)
        split
        · rename_i hlt
          cases ht : fctTechGo c (lim - (fctPhase1 techs lim (companies.take (lim * 3)) []).length)
              lim techs (fctPhase1 techs lim (companies.take (lim * 3)) []) with
          | error e => simp [ht, guardE, resultRecords]
          | ok rs =>
            simp only [ht, guardE, resultRecords]
            exact fctTechGo_len c _ lim techs _ rs hp1 ht
        · simp [guardE, resultRecords, except_pure_eq, hp1]
  · intro c ind tks loc lim hlim
    simp only [find_recent_job_changes]
    cases hs : c.search_people (rjcParams ind tks loc) (lim * 3) with
    | error e => simp [hs, except_bind_err, guardE, resultRecords]
    | ok people =>
      simp only [hs, except_bind_ok, except_pure_eq, guardE, resultRecords]
      exact rjcGo_len c tks lim people [] (by simpa using hlim)

/-- C2 witness: the amended theorem evaluated at concrete clients. -/
theorem C2_witness :
    (resultRecords (search_people cEmpty none none none none none none (some ("x")) 3)).length ≤ 3 ∧
    (resultRecords (search_people_by_skills cEmpty [] none none none 3)).length ≤ 3 ∧
    (resultRecords (find_decision_makers cEmpty ("1") none 3)).length ≤ 3 ∧
    (resultRecords (generate_lead_recommendations cEmpty none none none none 3)).length ≤ 3 ∧
    (resultRecords (identify_target_accounts cEmpty ("x") none none none none none 3)).length ≤ 3 ∧
    (resultRecords (find_companies_using_technologies cEmpty [] none none 3)).length ≤ 3 ∧
    (resultRecords (find_recent_job_changes cEmpty none none none 3)).length ≤ 3 :=
  ⟨C2_amended_thm.1 cEmpty none none none none none none ("x") 3 (by decide),
   C2_amended_thm.2.1 cEmpty [] none none none 3,
   C2_amended_thm.2.2.1 cEmpty ("1") none 3,
   C2_amended_thm.2.2.2.1 cEmpty none none none none 3,
   C2_amended_thm.2.2.2.2.1 cEmpty ("x") none none none none none 3,
   C2_amended_thm.2.2.2.2.2.1 cEmpty [] none none 3,
   C2_amended_thm.2.2.2.2.2.2 cEmpty none none none 3 (by decide)⟩

/- ---------------------------------------------------------------------- -/
/- Claim C4.                                                              -/
/- ---------------------------------------------------------------------- -/

theorem rjcGo_mem (c : Client) (tks : Option (List String)) (lim : Nat) :
    ∀ (ps : List Person) (acc : List JobChangeRec) (r : JobChangeRec),
      r ∈ rjcGo c tks lim ps acc →
      r ∈ acc ∨
      ∃ p ∈ ps, ∃ profile, c.get_profile (p.public_id.getD ("")) = Except.ok profile ∧
        ∃ e0 e1 rest2, profile.experience.getD [] = e0 :: e1 :: rest2 ∧
          pyLower (e0.companyName.getD ("")) ≠ pyLower (e1.companyName.getD ("")) ∧
          titleMatches tks (e0.title.getD ("")) = true ∧
          sdTruthy (e0.timePeriod.bind TimePeriod.startDate) = true ∧
          2024 ≤ ((e0.timePeriod.bind TimePeriod.startDate).bind StartD.year).getD 0 ∧
          r = mkJobChangeRec p profile (e0.title.getD ("")) (e0.companyName.getD (""))
            (e1.companyName.getD ("")) := by
  intro ps
  induction ps with
  | nil =>
    intro acc r h
    exact Or.inl (by simpa [rjcGo] using h)
  | cons person rest ih =>
    intro acc r h
    have step : ∀ acc2 : List JobChangeRec, r ∈ rjcGo c tks lim rest acc2 →
        r ∈ acc2 ∨
        ∃ p ∈ person :: rest, ∃ profile,
          c.get_profile (p.public_id.getD ("")) = Except.ok profile ∧
          ∃ e0 e1 rest2, profile.experience.getD [] = e0 :: e1 :: rest2 ∧
            pyLower (e0.companyName.getD ("")) ≠ pyLower (e1.companyName.getD ("")) ∧
            titleMatches tks (e0.title.getD ("")) = true ∧
            sdTruthy (e0.timePeriod.bind TimePeriod.startDate) = true ∧
            2024 ≤ ((e0.timePeriod.bind TimePeriod.startDate).bind StartD.year).getD 0 ∧
            r = mkJobChangeRec p profile (e0.title.getD ("")) (e0.companyName.getD (""))
              (e1.companyName.getD ("")) := by
      intro acc2 hh
      rcases ih acc2 r hh with h1 | ⟨p, hp, hr⟩
      · exact Or.inl h1
      · exact Or.inr ⟨p, List.mem_cons_of_mem _ hp, hr⟩
    rw [rjcGo] at h
    cases hg : c.get_profile (person.public_id.getD ("")) with
    | error e =>
      rw [hg] at h
      exact step acc h
    | ok profile =>
      simp only [hg] at h
      cases hexp : profile.experience.getD [] with
      | nil =>
        simp only [hexp] at h
        exact step acc h
      | cons e0 tl =>
        cases tl with
        | nil =>
          simp only [hexp] at h
          exact step acc h
        | cons e1 tl2 =>
          simp only [hexp] at h
          by_cases hco : pyLower (e0.companyName.getD ("")) =
              pyLower (e1.companyName.getD (""))
          · rw [if_pos hco] at h
            exact step acc h
          · rw [if_neg hco] at h
            by_cases htm : titleMatches tks (e0.title.getD ("")) = true
            · rw [if_pos htm] at h
              by_cases hsd : sdTruthy (e0.timePeriod.bind TimePeriod.startDate) = true
              · rw [if_pos hsd] at h
                by_cases hyr : 2024 ≤
                    ((e0.timePeriod.bind TimePeriod.startDate).bind StartD.year).getD 0
                · rw [if_pos hyr] at h
                  have hnew : r ∈ acc ++ [mkJobChangeRec person profile
                      (e0.title.getD ("")) (e0.companyName.getD (""))
                      (e1.companyName.getD (""))] →
                      r ∈ acc ∨
                      ∃ p ∈ person :: rest, ∃ profile2,
                        c.get_profile (p.public_id.getD ("")) = Except.ok profile2 ∧
                        ∃ f0 f1 rest2, profile2.experience.getD [] = f0 :: f1 :: rest2 ∧
                          pyLower (f0.companyName.getD ("")) ≠
                            pyLower (f1.companyName.getD ("")) ∧
                          titleMatches tks (f0.title.getD ("")) = true ∧
                          sdTruthy (f0.timePeriod.bind TimePeriod.startDate) = true ∧
                          2024 ≤ ((f0.timePeriod.bind TimePeriod.startDate).bind
                            StartD.year).getD 0 ∧
                          r = mkJobChangeRec p profile2 (f0.title.getD (""))
                            (f0.companyName.getD ("")) (f1.companyName.getD ("")) := by
                    intro hm
                    rcases List.mem_append.mp hm with h1 | h2
                    · exact Or.inl h1
                    · refine Or.inr ⟨person, List.mem_cons_self _ _, profile, hg,
                        e0, e1, tl2, hexp, hco, htm, hsd, hyr, ?_⟩
                      simpa using h2
                  split at h
                  · exact hnew h
                  · rcases step _ h with h1 | h2
                    · exact hnew h1
                    · exact Or.inr h2
                · rw [if_neg hyr] at h
                  exact step acc h
              · rw [if_neg hsd] at h
                exact step acc h
            · rw [if_neg htm] at h
              exact step acc h

/-- C4: a record appears in the output of `find_recent_job_changes` only
for an upstream person whose fetched profile has at least two experience
entries, a case-insensitive company change between the two most recent
entries, a current title matching a given keyword when keywords are
supplied, a truthy `startDate`, and a start year at least the hardcoded
literal 2024 — regardless of the actual current date. -/
theorem C4_thm (c : Client) (industry : Option String)
    (title_keywords : Option (List String)) (location : Option String)
    (lim : Nat) (r : JobChangeRec)
    (hmem : r ∈ resultRecords (find_recent_job_changes c industry title_keywords location lim)) :
    ∃ people, c.search_people (rjcParams industry title_keywords location) (lim * 3) =
        Except.ok people ∧
      ∃ p ∈ people, ∃ profile,
        c.get_profile (p.public_id.getD ("")) = Except.ok profile ∧
        ∃ e0 e1 rest2, profile.experience.getD [] = e0 :: e1 :: rest2 ∧
          pyLower (e0.companyName.getD ("")) ≠ pyLower (e1.companyName.getD ("")) ∧
          titleMatches title_keywords (e0.title.getD ("")) = true ∧
          sdTruthy (e0.timePeriod.bind TimePeriod.startDate) = true ∧
          2024 ≤ ((e0.timePeriod.bind TimePeriod.startDate).bind StartD.year).getD 0 ∧
          r = mkJobChangeRec p profile (e0.title.getD ("")) (e0.companyName.getD (""))
            (e1.companyName.getD ("")) := by
  simp only [find_recent_job_changes] at hmem
  cases hs : c.search_people (rjcParams industry title_keywords location) (lim * 3) with
  | error e =>
    rw [hs] at hmem
    simp [except_bind_err, guardE, resultRecords] at hmem
  | ok people =>
    rw [hs] at hmem
    simp only [except_bind_ok, except_pure_eq, guardE, resultRecords] at hmem
    rcases rjcGo_mem c title_keywords lim people [] r hmem with h1 | h2
    · cases h1
    · exact ⟨people, rfl, h2⟩

/-- C4 witness: at a client serving one person whose profile changed from
OldCo to NewCo in 2024, the record is in the output and the theorem applies. -/
theorem C4_witness :
    ∃ people, cJobChange.search_people (rjcParams none none none) (5 * 3) =
        Except.ok people ∧
      ∃ p ∈ people, ∃ profile,
        cJobChange.get_profile (p.public_id.getD ("")) = Except.ok profile ∧
        ∃ e0 e1 rest2, profile.experience.getD [] = e0 :: e1 :: rest2 ∧
          pyLower (e0.companyName.getD ("")) ≠ pyLower (e1.companyName.getD ("")) ∧
          titleMatches none (e0.title.getD ("")) = true ∧
          sdTruthy (e0.timePeriod.bind TimePeriod.startDate) = true ∧
          2024 ≤ ((e0.timePeriod.bind TimePeriod.startDate).bind StartD.year).getD 0 ∧
          mkJobChangeRec personW profileW ("CTO") ("NewCo") ("OldCo") =
            mkJobChangeRec p profile (e0.title.getD ("")) (e0.companyName.getD (""))
              (e1.companyName.getD ("")) :=
  C4_thm cJobChange none none none 5
    (mkJobChangeRec personW profileW ("CTO") ("NewCo") ("OldCo")) (by decide)

/- ---------------------------------------------------------------------- -/
/- Claims C6 and C7.                                                      -/
/- ---------------------------------------------------------------------- -/

theorem commonGo_spec (l2 : List String) :
    ∀ (l1 acc : List String), acc.Nodup →
      (commonGo l2 l1 acc).Nodup ∧
      (commonGo l2 l1 acc).toFinset = acc.toFinset ∪ (l1.toFinset ∩ l2.toFinset) := by
  intro l1
  induction l1 with
  | nil =>
    intro acc h
    exact ⟨by simpa [commonGo] using h, by simp [commonGo]⟩
  | cons x rest ih =>
    intro acc h
    rw [commonGo]
    by_cases hx : x ∈ l2 ∧ x ∉ acc
    · rw [if_pos hx]
      have hnd : (acc ++ [x]).Nodup := by
        simp [List.nodup_append, h, hx.2]
      obtain ⟨h1, h2⟩ := ih (acc ++ [x]) hnd
      refine ⟨h1, ?_⟩
      rw [h2]
      ext y
      simp only [List.toFinset_append, List.toFinset_cons, Finset.mem_union,
        Finset.mem_inter, Finset.mem_insert, List.mem_toFinset, List.toFinset_nil,
        List.mem_singleton]
      by_cases hyx : y = x
      · subst hyx
        simp [hx.1]
      · simp [hyx]
    · rw [if_neg hx]
      obtain ⟨h1, h2⟩ := ih acc h
      refine ⟨h1, ?_⟩
      rw [h2]
      ext y
      simp only [List.toFinset_cons, Finset.mem_union, Finset.mem_inter,
        Finset.mem_insert, List.mem_toFinset]
      by_cases hyx : y = x
      · subst hyx
        constructor
        · tauto
        · rintro (hy | ⟨hy1, hy2⟩)
          · exact Or.inl hy
          · rcases hy1 with hy1 | hy1
            · left
              by_contra hna
              exact hx ⟨hy2, hna⟩
            · exact Or.inr ⟨hy1, hy2⟩
      · simp [hyx]

theorem commonGo_toFinset (l2 l1 : List String) :
    (commonGo l2 l1 []).toFinset = l1.toFinset ∩ l2.toFinset := by
  simpa using (commonGo_spec l2 l1 [] (by simp)).2

theorem commonGo_length (l2 l1 : List String) :
    (commonGo l2 l1 []).length = (l1.toFinset ∩ l2.toFinset).card := by
  rw [← commonGo_toFinset l2 l1]
  exact (List.toFinset_card_of_nodup (commonGo_spec l2 l1 [] (by simp)).1).symm

/-- C6: the reported `connection_strength` is the number of distinct common
lowercased employer names plus the number of distinct common lowercased
school names plus the minimum of 5 and the number of distinct common
lowercased skill names. -/
theorem C6_thm (pid1 pid2 : String) (p1 p2 : Profile) (sk1 sk2 : List Skill)
    (lim : Nat) :
    (fccCore pid1 pid2 p1 p2 sk1 sk2 lim).connection_strength =
      ((expCompanies p1).toFinset ∩ (expCompanies p2).toFinset).card +
      ((eduSchools p1).toFinset ∩ (eduSchools p2).toFinset).card +
      min ((skillNames sk1).toFinset ∩ (skillNames sk2).toFinset).card 5 := by
  simp only [fccCore]
  rw [commonGo_length, commonGo_length, commonGo_length]

/-- C7: swapping the two profile identifiers in `find_common_connections`
yields the same `common_companies` and `common_schools` sets. -/
theorem C7_thm (c : Client) (pid1 pid2 : String) (lim : Nat) (r1 r2 : CommonRec)
    (h1 : find_common_connections c pid1 pid2 lim = ToolResult.ok r1)
    (h2 : find_common_connections c pid2 pid1 lim = ToolResult.ok r2) :
    r1.common_companies.toFinset = r2.common_companies.toFinset ∧
    r1.common_schools.toFinset = r2.common_schools.toFinset := by
  simp only [find_common_connections] at h1 h2
  cases hga : c.get_profile pid1 with
  | error e =>
    rw [hga] at h1
    simp [except_bind_err, guardE] at h1
  | ok pa =>
  cases hgb : c.get_profile pid2 with
  | error e =>
    rw [hgb] at h2
    simp [except_bind_err, guardE] at h2
  | ok pb =>
  cases hsa : c.get_profile_skills pid1 with
  | error e =>
    rw [hga, hgb, hsa] at h1
    simp [except_bind_ok, except_bind_err, guardE] at h1
  | ok sa =>
  cases hsb : c.get_profile_skills pid2 with
  | error e =>
    rw [hgb, hga, hsb] at h2
    simp [except_bind_ok, except_bind_err, guardE] at h2
  | ok sb =>
  rw [hga, hgb, hsa, hsb] at h1
  rw [hgb, hga, hsb, hsa] at h2
  simp only [except_bind_ok, except_pure_eq, guardE, ToolResult.ok.injEq] at h1 h2
  subst h1
  subst h2
  constructor
  · simp only [fccCore]
    rw [commonGo_toFinset, commonGo_toFinset]
    exact Finset.inter_comm _ _
  · simp only [fccCore]
    rw [commonGo_toFinset, commonGo_toFinset]
    exact Finset.inter_comm _ _

/-- C7 witness: the theorem applied to a concrete client serving two fixed
profiles, with both fetch hypotheses discharged by evaluation. -/
theorem C7_witness :
    (fccCore ("a") ("b") profileA profileB [] [] 5).common_companies.toFinset =
      (fccCore ("b") ("a") profileB profileA [] [] 5).common_companies.toFinset ∧
    (fccCore ("a") ("b") profileA profileB [] [] 5).common_schools.toFinset =
      (fccCore ("b") ("a") profileB profileA [] [] 5).common_schools.toFinset :=
  C7_thm cSwap ("a") ("b") 5 _ _ rfl rfl

/- ---------------------------------------------------------------------- -/
/- Claim C8.                                                              -/
/- ---------------------------------------------------------------------- -/

theorem score_shape (b : Bool) (s : Nat) :
    (if b then 30 else 0) + min (s * 5) 50 ≤ 80 := by
  have := Nat.min_le_right (s * 5) 50
  cases b
  · simp
    try omega
  · simp
    try omega

theorem level_high_imp (b : Bool) (s : Nat)
    (h : (if 70 ≤ (if b then 30 else 0) + min (s * 5) 50 then ("High")
          else if 40 ≤ (if b then 30 else 0) + min (s * 5) 50 then ("Medium")
          else ("Low")) = ("High")) : b = true := by
  cases b
  · exfalso
    simp at h
    split at h <;> simp_all
  · rfl

/-- C8: the opportunity score is between 0 and 80 (decision-maker bonus 30
plus keyword component capped at 50), and a `"High"` opportunity level
implies decision-maker status. -/
theorem C8_thm (profile_id : String) (profile : Profile) (skills : List Skill)
    (service_keywords : Option (List String)) :
    0 ≤ (analyzeCore profile_id profile skills service_keywords).opportunity_score ∧
    (analyzeCore profile_id profile skills service_keywords).opportunity_score ≤ 80 ∧
    ((analyzeCore profile_id profile skills service_keywords).opportunity_level = ("High") →
      (analyzeCore profile_id profile skills service_keywords).is_decision_maker = true) := by
  refine ⟨Nat.zero_le _, ?_, ?_⟩
  · simp only [analyzeCore]
    exact score_shape _ _
  · simp only [analyzeCore]
    exact fun hl => level_high_imp _ _ hl

/-- C8 witness: a profile with a CTO current title and four headline
keyword hits scores exactly 70, is classified `"High"`, and the theorem
yields decision-maker status. -/
theorem C8_witness :
    (analyzeCore ("p") profileHigh [] none).opportunity_level = ("High") ∧
    (analyzeCore ("p") profileHigh [] none).is_decision_maker = true :=
  ⟨by decide, (C8_thm ("p") profileHigh [] none).2.2 (by decide)⟩

/- ---------------------------------------------------------------------- -/
/- Claim C5: service-scan fold lemmas.                                    -/
/- ---------------------------------------------------------------------- -/

theorem length_filter_or_disjoint {α : Type} (l : List α) (p q : α → Bool)
    (h : ∀ x ∈ l, ¬(p x = true ∧ q x = true)) :
    (l.filter p).length + (l.filter q).length =
      (l.filter (fun x => p x || q x)).length := by
  induction l with
  | nil => simp
  | cons a rest ih =>
    have hrest : ∀ x ∈ rest, ¬(p x = true ∧ q x = true) :=
      fun x hx => h x (List.mem_cons_of_mem _ hx)
    have hih := ih hrest
    by_cases hp : p a = true
    · have hq : q a = false := by
        cases hqv : q a
        · rfl
        · exact absurd ⟨hp, hqv⟩ (h a (List.mem_cons_self _ _))
      rw [List.filter_cons_of_pos hp,
          List.filter_cons_of_neg (by simp [hq]),
          List.filter_cons_of_pos (by simp [hp])]
      simp only [List.length_cons]
      omega
    · have hp2 : p a = false := by
        cases hpv : p a
        · rfl
        · exact absurd hpv hp
      by_cases hq : q a = true
      · rw [List.filter_cons_of_neg (by simp [hp2]),
            List.filter_cons_of_pos hq,
            List.filter_cons_of_pos (by simp [hq])]
        simp only [List.length_cons]
        omega
      · have hq2 : q a = false := by
          cases hqv : q a
          · rfl
          · exact absurd hqv hq
        rw [List.filter_cons_of_neg (by simp [hp2]),
            List.filter_cons_of_neg (by simp [hq2]),
            List.filter_cons_of_neg (by simp [hp2, hq2])]
        exact hih

theorem headlineScan_go (headline : String) :
    ∀ (kws : List String) (st : List String × Nat),
      List.foldl
        (fun st keyword =>
          if headline ≠ ("") ∧ strIn (pyLower keyword) (pyLower headline) then
            (st.1 ++ [keyword], st.2 + 2)
          else st)
        st kws
      = (st.1 ++ kws.filter (fun k => decide (headlineHit headline k)),
         st.2 + 2 * (kws.filter (fun k => decide (headlineHit headline k))).length) := by
  intro kws
  induction kws with
  | nil => intro st; simp
  | cons k rest ih =>
    intro st
    simp only [List.foldl_cons]
    by_cases hk : headline ≠ ("") ∧ strIn (pyLower k) (pyLower headline)
    · rw [if_pos hk]
      rw [ih (st.1 ++ [k], st.2 + 2)]
      rw [List.filter_cons_of_pos (by simpa [headlineHit] using hk)]
      simp only [Prod.mk.injEq]
      constructor
      · simp
      · simp
        omega
    · rw [if_neg hk]
      rw [ih st]
      rw [List.filter_cons_of_neg (by simpa [headlineHit] using hk)]

theorem headlineScan_eq (headline : String) (kws : List String) :
    headlineScan headline kws =
      (kws.filter (fun k => decide (headlineHit headline k)),
       2 * (kws.filter (fun k => decide (headlineHit headline k))).length) := by
  have h := headlineScan_go headline kws ([], 0)
  simpa [headlineScan] using h

theorem scanKw_go (item : String) :
    ∀ (kws : List String), kws.Nodup → ∀ (st : List String × Nat),
      List.foldl
        (fun st keyword =>
          if strIn (pyLower keyword) item ∧ keyword ∉ st.1 then
            (st.1 ++ [keyword], st.2 + 1)
          else st)
        st kws
      = (st.1 ++ kws.filter (fun k => decide (strIn (pyLower k) item ∧ k ∉ st.1)),
         st.2 + (kws.filter (fun k => decide (strIn (pyLower k) item ∧ k ∉ st.1))).length) := by
  intro kws
  induction kws with
  | nil => intro _ st; simp
  | cons k rest ih =>
    intro hnd st
    obtain ⟨hk_not, hrest⟩ := List.nodup_cons.mp hnd
    simp only [List.foldl_cons]
    by_cases hk : strIn (pyLower k) item ∧ k ∉ st.1
    · rw [if_pos hk]
      rw [ih hrest (st.1 ++ [k], st.2 + 1)]
      have hcong : rest.filter
            (fun x => decide (strIn (pyLower x) item ∧ x ∉ st.1 ++ [k]))
          = rest.filter (fun x => decide (strIn (pyLower x) item ∧ x ∉ st.1)) := by
        apply List.filter_congr
        intro x hx
        have hxk : x ≠ k := fun he => hk_not (he ▸ hx)
        simp [List.mem_append, hxk]
      rw [List.filter_cons_of_pos (by simpa using hk)]
      simp only [hcong, Prod.mk.injEq]
      constructor
      · simp
      · simp
        omega
    · rw [if_neg hk]
      rw [ih hrest st]
      rw [List.filter_cons_of_neg (by simpa using hk)]

theorem scanItems_spec :
    ∀ (items kws : List String), kws.Nodup → ∀ (st : List String × Nat),
      (scanItems items kws st).2 =
        st.2 + (kws.filter (fun k =>
          decide ((∃ it ∈ items, strIn (pyLower k) it) ∧ k ∉ st.1))).length ∧
      ∀ x, x ∈ (scanItems items kws st).1 ↔
        x ∈ st.1 ∨ (x ∈ kws ∧ (∃ it ∈ items, strIn (pyLower x) it) ∧ x ∉ st.1) := by
  intro items
  induction items with
  | nil =>
    intro kws hnd st
    constructor
    · simp [scanItems]
    · intro x
      simp [scanItems]
  | cons item rest ih =>
    intro kws hnd st
    have hstep := scanKw_go item kws hnd st
    have hunfold : scanItems (item :: rest) kws st =
        scanItems rest kws
          (st.1 ++ kws.filter (fun k => decide (strIn (pyLower k) item ∧ k ∉ st.1)),
           st.2 + (kws.filter (fun k => decide (strIn (pyLower k) item ∧ k ∉ st.1))).length) := by
      simp only [scanItems, List.foldl_cons]
      rw [hstep]
    obtain ⟨ihc, ihm⟩ := ih kws hnd
      (st.1 ++ kws.filter (fun k => decide (strIn (pyLower k) item ∧ k ∉ st.1)),
       st.2 + (kws.filter (fun k => decide (strIn (pyLower k) item ∧ k ∉ st.1))).length)
    dsimp only at ihc ihm
    have hmemF : ∀ x, x ∈ kws.filter (fun k => decide (strIn (pyLower k) item ∧ k ∉ st.1)) ↔
        x ∈ kws ∧ strIn (pyLower x) item ∧ x ∉ st.1 := by
      intro x
      simp [List.mem_filter]
    have hE : ∀ x, (∃ it ∈ item :: rest, strIn (pyLower x) it) ↔
        (strIn (pyLower x) item ∨ ∃ it ∈ rest, strIn (pyLower x) it) := by
      intro x
      simp
    constructor
    · rw [hunfold, ihc]
      have hcong1 : kws.filter (fun k =>
            decide ((∃ it ∈ rest, strIn (pyLower k) it) ∧
              k ∉ st.1 ++ kws.filter (fun k2 => decide (strIn (pyLower k2) item ∧ k2 ∉ st.1))))
          = kws.filter (fun k =>
            decide (((∃ it ∈ rest, strIn (pyLower k) it) ∧ ¬ strIn (pyLower k) item) ∧
              k ∉ st.1)) := by
        apply List.filter_congr
        intro x hx
        apply decide_eq_decide.mpr
        constructor
        · rintro ⟨her, hnm⟩
          have hx1 : x ∉ st.1 := fun hmem => hnm (List.mem_append.mpr (Or.inl hmem))
          have hx2 : ¬ strIn (pyLower x) item := by
            intro hhit
            exact hnm (List.mem_append.mpr (Or.inr ((hmemF x).mpr ⟨hx, hhit, hx1⟩)))
          exact ⟨⟨her, hx2⟩, hx1⟩
        · rintro ⟨⟨her, hnhit⟩, hx1⟩
          refine ⟨her, ?_⟩
          intro hmem
          rcases List.mem_append.mp hmem with hm1 | hm2
          · exact hx1 hm1
          · exact hnhit ((hmemF x).mp hm2).2.1
      rw [hcong1]
      have hdisj := length_filter_or_disjoint kws
        (fun k => decide (strIn (pyLower k) item ∧ k ∉ st.1))
        (fun k => decide (((∃ it ∈ rest, strIn (pyLower k) it) ∧
          ¬ strIn (pyLower k) item) ∧ k ∉ st.1))
        (by
          intro x hx
          rintro ⟨h1, h2⟩
          rw [decide_eq_true_eq] at h1 h2
          exact h2.1.2 h1.1)
      have hcong2 : kws.filter (fun x =>
            decide (strIn (pyLower x) item ∧ x ∉ st.1) ||
            decide (((∃ it ∈ rest, strIn (pyLower x) it) ∧
              ¬ strIn (pyLower x) item) ∧ x ∉ st.1))
          = kws.filter (fun k =>
            decide ((∃ it ∈ item :: rest, strIn (pyLower k) it) ∧ k ∉ st.1)) := by
        apply List.filter_congr
        intro x hx
        rw [Bool.eq_iff_iff]
        simp only [Bool.or_eq_true, decide_eq_true_eq]
        constructor
        · rintro (⟨hh, hn⟩ | ⟨⟨he, hnh⟩, hn⟩)
          · exact ⟨(hE x).mpr (Or.inl hh), hn⟩
          · exact ⟨(hE x).mpr (Or.inr he), hn⟩
        · rintro ⟨hec, hn⟩
          rcases (hE x).mp hec with hh | he
          · exact Or.inl ⟨hh, hn⟩
          · by_cases hh2 : strIn (pyLower x) item
            · exact Or.inl ⟨hh2, hn⟩
            · exact Or.inr ⟨⟨he, hh2⟩, hn⟩
      rw [← hcong2, ← hdisj]
      omega
    · intro x
      rw [hunfold, ihm x]
      have hx_pair : x ∈ (st.1 ++ kws.filter (fun k =>
            decide (strIn (pyLower k) item ∧ k ∉ st.1))) ↔
          x ∈ st.1 ∨ (x ∈ kws ∧ strIn (pyLower x) item ∧ x ∉ st.1) := by
        rw [List.mem_append, hmemF x]
      constructor
      · rintro (hp | ⟨hxk, her, hnp⟩)
        · rcases hx_pair.mp hp with h1 | ⟨h2a, h2b, h2c⟩
          · exact Or.inl h1
          · exact Or.inr ⟨h2a, (hE x).mpr (Or.inl h2b), h2c⟩
        · have hx1 : x ∉ st.1 := fun hmm => hnp (hx_pair.mpr (Or.inl hmm))
          exact Or.inr ⟨hxk, (hE x).mpr (Or.inr her), hx1⟩
      · rintro (h1 | ⟨hxk, hec, hx1⟩)
        · exact Or.inl (hx_pair.mpr (Or.inl h1))
        · rcases (hE x).mp hec with hhit | her
          · exact Or.inl (hx_pair.mpr (Or.inr ⟨hxk, hhit, hx1⟩))
          · by_cases hhit2 : strIn (pyLower x) item
            · exact Or.inl (hx_pair.mpr (Or.inr ⟨hxk, hhit2, hx1⟩))
            · refine Or.inr ⟨hxk, her, ?_⟩
              intro hp
              rcases hx_pair.mp hp with hm1 | ⟨hmm1, hm2, hmm3⟩
              · exact hx1 hm1
              · exact hhit2 hm2

theorem scanChain (H : String) (eitems sitems kws : List String) (hnd : kws.Nodup) :
    (scanItems sitems kws (scanItems eitems kws (headlineScan H kws))).2 =
      2 * (kws.filter (fun k => decide (headlineHit H k))).length +
      (kws.filter (fun k => decide (¬ headlineHit H k ∧
        ∃ it ∈ eitems ++ sitems, strIn (pyLower k) it))).length := by
  rw [headlineScan_eq]
  obtain ⟨h2c, h2m⟩ := scanItems_spec eitems kws hnd
    (kws.filter (fun k => decide (headlineHit H k)),
     2 * (kws.filter (fun k => decide (headlineHit H k))).length)
  obtain ⟨h3c, h3m⟩ := scanItems_spec sitems kws hnd
    (scanItems eitems kws
      (kws.filter (fun k => decide (headlineHit H k)),
       2 * (kws.filter (fun k => decide (headlineHit H k))).length))
  dsimp only at h2c h2m
  have hFH : ∀ x, x ∈ kws.filter (fun k => decide (headlineHit H k)) ↔
      x ∈ kws ∧ headlineHit H x := by
    intro x
    simp [List.mem_filter]
  have hmid : ∀ x, x ∈ kws →
      (x ∈ (scanItems eitems kws
        (kws.filter (fun k => decide (headlineHit H k)),
         2 * (kws.filter (fun k => decide (headlineHit H k))).length)).1 ↔
      (headlineHit H x ∨ ∃ it ∈ eitems, strIn (pyLower x) it)) := by
    intro x hx
    rw [h2m x]
    constructor
    · rintro (hf | ⟨hxk, he, hnf⟩)
      · exact Or.inl ((hFH x).mp hf).2
      · exact Or.inr he
    · rintro (hh | he)
      · exact Or.inl ((hFH x).mpr ⟨hx, hh⟩)
      · by_cases hh2 : headlineHit H x
        · exact Or.inl ((hFH x).mpr ⟨hx, hh2⟩)
        · exact Or.inr ⟨hx, he, fun hf => hh2 ((hFH x).mp hf).2⟩
  rw [h3c, h2c]
  have hcongE : kws.filter (fun k => decide ((∃ it ∈ eitems, strIn (pyLower k) it) ∧
        k ∉ kws.filter (fun k2 => decide (headlineHit H k2))))
      = kws.filter (fun k => decide ((∃ it ∈ eitems, strIn (pyLower k) it) ∧
        ¬ headlineHit H k)) := by
    apply List.filter_congr
    intro x hx
    apply decide_eq_decide.mpr
    constructor
    · rintro ⟨he, hnf⟩
      exact ⟨he, fun hh => hnf ((hFH x).mpr ⟨hx, hh⟩)⟩
    · rintro ⟨he, hnh⟩
      exact ⟨he, fun hf => hnh ((hFH x).mp hf).2⟩
  have hcongS : kws.filter (fun k => decide ((∃ it ∈ sitems, strIn (pyLower k) it) ∧
        k ∉ (scanItems eitems kws
          (kws.filter (fun k2 => decide (headlineHit H k2)),
           2 * (kws.filter (fun k2 => decide (headlineHit H k2))).length)).1))
      = kws.filter (fun k => decide (((∃ it ∈ sitems, strIn (pyLower k) it) ∧
        ¬ (∃ it ∈ eitems, strIn (pyLower k) it)) ∧ ¬ headlineHit H k)) := by
    apply List.filter_congr
    intro x hx
    apply decide_eq_decide.mpr
    constructor
    · rintro ⟨hs, hnm⟩
      have hni : ¬ (headlineHit H x ∨ ∃ it ∈ eitems, strIn (pyLower x) it) :=
        fun hor => hnm ((hmid x hx).mpr hor)
      exact ⟨⟨hs, fun he => hni (Or.inr he)⟩, fun hh => hni (Or.inl hh)⟩
    · rintro ⟨⟨hs, hne2⟩, hnh⟩
      refine ⟨hs, fun hm => ?_⟩
      rcases (hmid x hx).mp hm with hh | he
      · exact hnh hh
      · exact hne2 he
  rw [hcongE, hcongS]
  have hdisj := length_filter_or_disjoint kws
    (fun k => decide ((∃ it ∈ eitems, strIn (pyLower k) it) ∧ ¬ headlineHit H k))
    (fun k => decide (((∃ it ∈ sitems, strIn (pyLower k) it) ∧
      ¬ (∃ it ∈ eitems, strIn (pyLower k) it)) ∧ ¬ headlineHit H k))
    (by
      intro x hx
      rintro ⟨h1, h2⟩
      rw [decide_eq_true_eq] at h1 h2
      exact h2.1.2 h1.1)
  have hcongF : kws.filter (fun x =>
        decide ((∃ it ∈ eitems, strIn (pyLower x) it) ∧ ¬ headlineHit H x) ||
        decide (((∃ it ∈ sitems, strIn (pyLower x) it) ∧
          ¬ (∃ it ∈ eitems, strIn (pyLower x) it)) ∧ ¬ headlineHit H x))
      = kws.filter (fun k => decide (¬ headlineHit H k ∧
        ∃ it ∈ eitems ++ sitems, strIn (pyLower k) it)) := by
    apply List.filter_congr
    intro x hx
    rw [Bool.eq_iff_iff]
    simp only [Bool.or_eq_true, decide_eq_true_eq]
    constructor
    · rintro (⟨he, hnh⟩ | ⟨⟨hs, hne2⟩, hnh⟩)
      · exact ⟨hnh, by rcases he with ⟨it, hit, hin⟩; exact ⟨it, List.mem_append.mpr (Or.inl hit), hin⟩⟩
      · exact ⟨hnh, by rcases hs with ⟨it, hit, hin⟩; exact ⟨it, List.mem_append.mpr (Or.inr hit), hin⟩⟩
    · rintro ⟨hnh, it, hit, hin⟩
      rcases List.mem_append.mp hit with h1 | h2
      · exact Or.inl ⟨⟨it, h1, hin⟩, hnh⟩
      · by_cases he : ∃ it2 ∈ eitems, strIn (pyLower x) it2
        · exact Or.inl ⟨he, hnh⟩
        · exact Or.inr ⟨⟨⟨it, h2, hin⟩, he⟩, hnh⟩
  rw [← hcongF, ← hdisj]
  omega

theorem level_iffs (S : Nat) :
    ((if 70 ≤ S then ("High") else if 40 ≤ S then ("Medium") else ("Low")) = ("High")
      ↔ 70 ≤ S) ∧
    ((if 70 ≤ S then ("High") else if 40 ≤ S then ("Medium") else ("Low")) = ("Medium")
      ↔ 40 ≤ S ∧ S < 70) ∧
    ((if 70 ≤ S then ("High") else if 40 ≤ S then ("Medium") else ("Low")) = ("Low")
      ↔ S < 40) := by
  by_cases h70 : 70 ≤ S
  · rw [if_pos h70]
    refine ⟨⟨fun _ => h70, fun _ => rfl⟩, ?_, ?_⟩
    · exact ⟨fun h => absurd h (by decide), fun h => absurd h.2 (by omega)⟩
    · exact ⟨fun h => absurd h (by decide), fun h => absurd h (by omega)⟩
  · rw [if_neg h70]
    by_cases h40 : 40 ≤ S
    · rw [if_pos h40]
      refine ⟨⟨fun h => absurd h (by decide), fun h => absurd h h70⟩, ?_, ?_⟩
      · exact ⟨fun _ => ⟨h40, by omega⟩, fun _ => rfl⟩
      · exact ⟨fun h => absurd h (by decide), fun h => absurd h (by omega)⟩
    · rw [if_neg h40]
      refine ⟨⟨fun h => absurd h (by decide), fun h => absurd h h70⟩, ?_, ?_⟩
      · exact ⟨fun h => absurd h (by decide), fun h => absurd h.1 h40⟩
      · exact ⟨fun _ => by omega, fun _ => rfl⟩

/-- C5: for a duplicate-free explicit keyword list, `analyze_prospect_profile`
computes `opportunity_score = (30 if decision maker else 0) +
min(5 * service_score, 50)`, where `service_score` is 2 per keyword found in
the headline plus 1 per further keyword found in an experience description
or skill name (each keyword counted once); the opportunity level buckets are
exactly `>= 70` High, `>= 40` Medium, else Low. -/
theorem C5_thm (profile_id : String) (profile : Profile) (skills : List Skill)
    (kws : List String) (hne : kws ≠ []) (hnd : kws.Nodup) :
    (analyzeCore profile_id profile skills (some kws)).opportunity_score =
      (if (analyzeCore profile_id profile skills (some kws)).is_decision_maker
        then 30 else 0) +
      min ((analyzeCore profile_id profile skills (some kws)).service_score * 5) 50 ∧
    (analyzeCore profile_id profile skills (some kws)).service_score =
      2 * (kws.filter (fun k =>
        decide (headlineHit (profile.headline.getD ("")) k))).length +
      (kws.filter (fun k =>
        decide (¬ headlineHit (profile.headline.getD ("")) k ∧
          elseHit profile skills k))).length ∧
    ((analyzeCore profile_id profile skills (some kws)).is_decision_maker = true ↔
      ∃ t ∈ decisionMakerTitles,
        strIn t (pyLower (analyzeCore profile_id profile skills (some kws)).current_title)) ∧
    ((analyzeCore profile_id profile skills (some kws)).opportunity_level = ("High") ↔
      70 ≤ (analyzeCore profile_id profile skills (some kws)).opportunity_score) ∧
    ((analyzeCore profile_id profile skills (some kws)).opportunity_level = ("Medium") ↔
      40 ≤ (analyzeCore profile_id profile skills (some kws)).opportunity_score ∧
      (analyzeCore profile_id profile skills (some kws)).opportunity_score < 70) ∧
    ((analyzeCore profile_id profile skills (some kws)).opportunity_level = ("Low") ↔
      (analyzeCore profile_id profile skills (some kws)).opportunity_score < 40) := by
  obtain ⟨k0, ks, rfl⟩ : ∃ k0 ks, kws = k0 :: ks := by
    cases kws with
    | nil => exact absurd rfl hne
    | cons a l => exact ⟨a, l, rfl⟩
  refine ⟨?_, ?_, ?_, ?_, ?_, ?_⟩
  · simp only [analyzeCore]
  · simp only [analyzeCore]
    exact scanChain _ _ _ _ hnd
  · simp only [analyzeCore]
    simp [strInB, List.countP_pos_iff]
  · simp only [analyzeCore]
    exact (level_iffs _).1
  · simp only [analyzeCore]
    exact (level_iffs _).2.1
  · simp only [analyzeCore]
    exact (level_iffs _).2.2

/-- C5 witness: the theorem applied to a concrete profile and the concrete
duplicate-free keyword list `["cloud", "devops"]`. -/
theorem C5_witness :
    (analyzeCore ("p") profileHigh [] (some [("cloud"), ("devops")])).opportunity_score =
      (if (analyzeCore ("p") profileHigh [] (some [("cloud"), ("devops")])).is_decision_maker
        then 30 else 0) +
      min ((analyzeCore ("p") profileHigh [] (some [("cloud"), ("devops")])).service_score * 5) 50 ∧
    (analyzeCore ("p") profileHigh [] (some [("cloud"), ("devops")])).service_score =
      2 * (([("cloud"), ("devops")] : List String).filter (fun k =>
        decide (headlineHit (profileHigh.headline.getD ("")) k))).length +
      (([("cloud"), ("devops")] : List String).filter (fun k =>
        decide (¬ headlineHit (profileHigh.headline.getD ("")) k ∧
          elseHit profileHigh [] k))).length ∧
    ((analyzeCore ("p") profileHigh [] (some [("cloud"), ("devops")])).is_decision_maker = true ↔
      ∃ t ∈ decisionMakerTitles,
        strIn t (pyLower (analyzeCore ("p") profileHigh []
          (some [("cloud"), ("devops")])).current_title)) ∧
    ((analyzeCore ("p") profileHigh [] (some [("cloud"), ("devops")])).opportunity_level = ("High") ↔
      70 ≤ (analyzeCore ("p") profileHigh [] (some [("cloud"), ("devops")])).opportunity_score) ∧
    ((analyzeCore ("p") profileHigh [] (some [("cloud"), ("devops")])).opportunity_level = ("Medium") ↔
      40 ≤ (analyzeCore ("p") profileHigh [] (some [("cloud"), ("devops")])).opportunity_score ∧
      (analyzeCore ("p") profileHigh [] (some [("cloud"), ("devops")])).opportunity_score < 70) ∧
    ((analyzeCore ("p") profileHigh [] (some [("cloud"), ("devops")])).opportunity_level = ("Low") ↔
      (analyzeCore ("p") profileHigh [] (some [("cloud"), ("devops")])).opportunity_score < 40) :=
  C5_thm ("p") profileHigh [] [("cloud"), ("devops")] (by decide) (by decide)

/- ---------------------------------------------------------------------- -/
/- Claim C9.                                                              -/
/- ---------------------------------------------------------------------- -/

theorem matchedSkills_nil (person_skills : List Skill) :
    matchedSkills [] person_skills = [] := by
  simp [matchedSkills]

theorem sbsFilter_all (c : Client) (lim : Nat)
    (hsk : ∀ pid, ∃ l, c.get_profile_skills pid = Except.ok l) :
    ∀ (ps : List Person) (acc : List Person),
      ∃ res, sbsFilter c [] lim ps acc = Except.ok res ∧
        res.take lim = (acc ++ ps).take lim := by
  intro ps
  induction ps with
  | nil =>
    intro acc
    exact ⟨acc, by simp [sbsFilter], by simp⟩
  | cons person rest ih =>
    intro acc
    obtain ⟨l, hl⟩ := hsk (person.public_id.getD (""))
    by_cases hbr : lim ≤ (acc ++ [person]).length
    · refine ⟨acc ++ [person], ?_, ?_⟩
      · simp only [sbsFilter, hl, except_bind_ok, hasAllSkills, List.all_nil,
          if_true, if_pos hbr]
      · have h2 : acc ++ person :: rest = (acc ++ [person]) ++ rest := by simp
        rw [h2, List.take_append_of_le_length hbr]
    · obtain ⟨res, hres, htake⟩ := ih (acc ++ [person])
      refine ⟨res, ?_, ?_⟩
      · simp only [sbsFilter, hl, except_bind_ok, hasAllSkills, List.all_nil,
          if_true, if_neg hbr]
        exact hres
      · rw [htake]
        have : acc ++ person :: rest = (acc ++ [person]) ++ rest := by simp
        rw [this]

theorem sbsFormat_all (c : Client)
    (hsk : ∀ pid, ∃ l, c.get_profile_skills pid = Except.ok l) :
    ∀ ps : List Person,
      sbsFormat c [] ps = Except.ok (ps.map (fun person =>
        { id := person.public_id.getD (""),
          name := fullNameOfPerson person,
          title := person.occupation.getD (""),
          company := currentCompanyOf person,
          location := person.locationName.getD (""),
          matched_skills := [],
          url := profileUrl (person.public_id.getD ("")) })) := by
  intro ps
  induction ps with
  | nil => simp [sbsFormat]
  | cons person rest ih =>
    obtain ⟨l, hl⟩ := hsk (person.public_id.getD (""))
    simp only [sbsFormat, hl, except_bind_ok, ih, matchedSkills_nil, List.map_cons]
    rfl

/-- C9: with an empty skills list, `search_people_by_skills` sends no
keywords parameter upstream, the all-skills filter is vacuously true, and
the output is exactly the first `limit` upstream hits, each with an empty
`matched_skills` list. -/
theorem C9_thm (c : Client) (title industry location : Option String) (lim : Nat)
    (people : List Person)
    (hs : c.search_people
      { title := keepTruthy title, industry := keepTruthy industry,
        location_name := keepTruthy location } (lim * 2) = Except.ok people)
    (hsk : ∀ pid, ∃ l, c.get_profile_skills pid = Except.ok l) :
    ({ title := keepTruthy title, industry := keepTruthy industry,
       location_name := keepTruthy location } : PeopleSearchParams).keywords = none ∧
    search_people_by_skills c [] title industry location lim =
      ToolResult.ok ((people.take lim).map (fun person =>
        { id := person.public_id.getD (""),
          name := fullNameOfPerson person,
          title := person.occupation.getD (""),
          company := currentCompanyOf person,
          location := person.locationName.getD (""),
          matched_skills := [],
          url := profileUrl (person.public_id.getD ("")) })) := by
  constructor
  · rfl
  · obtain ⟨res, hres, htake⟩ := sbsFilter_all c lim hsk people []
    simp only [search_people_by_skills, hs, except_bind_ok, hres,
      sbsFormat_all c hsk, guardE]
    rw [htake]
    simp

/-- C9 witness: at a client returning three hits and empty skill lists,
with limit 2 the output is the first two hits with empty matched skills. -/
theorem C9_witness :
    ({ title := keepTruthy none, industry := keepTruthy none,
       location_name := keepTruthy none } : PeopleSearchParams).keywords = none ∧
    search_people_by_skills cPeopleThree [] none none none 2 =
      ToolResult.ok (([personA, personB, personC].take 2).map (fun person =>
        { id := person.public_id.getD (""),
          name := fullNameOfPerson person,
          title := person.occupation.getD (""),
          company := currentCompanyOf person,
          location := person.locationName.getD (""),
          matched_skills := [],
          url := profileUrl (person.public_id.getD ("")) })) :=
  C9_thm cPeopleThree none none none 2 [personA, personB, personC] rfl
    (fun _ => ⟨[], rfl⟩)
